import Mathlib

/-!
Verification development for the car-scraper classification-and-extraction
core (package `car_scraper`).

The Python sources are shallowly embedded as executable Lean functions:

* `templates/utils.py` (parse_price, parse_mileage, parse_year,
  extract_jsonld_objects, finalize_detail_output),
* `utils/schema_normalizer.py` (SchemaNormalizer and its wrapper functions),
* `engine.py` (the JSON-LD vehicle type test and the TemplateDetector
  scoring/selection algorithm),
* `templates/jsonld_vehicle.py` and `templates/detail_jsonld_vehicle.py`.

Modelling boundary: HTML parsing (BeautifulSoup) and JSON decoding are
treated as the input boundary.  A document is represented by the list of
already-decoded JSON-LD script payloads, the boolean/count signals that the
detector derives from the soup, and the already-extracted microdata/meta
records used by the fallback paths.  Everything downstream of that boundary
is translated line by line from the source.

Python regular expressions used by the sources are hand-translated into
character-list scanners with the same leftmost-match semantics; Python
arithmetic on floats is modelled with exact rationals, and Python `round`
(banker's rounding) is modelled by `pyRound` below.  ASCII case folding and
whitespace are used; the repository only feeds ASCII text (plus currency
symbols, which are case-invariant) to these functions.
-/

namespace CarScraper

-- The Batteries rational-arithmetic kernels are `@[irreducible]`, which
-- blocks `decide`-style evaluation of the embedded functions; restore the
-- default reducibility for this file so concrete runs of the pipeline can
-- be checked by the kernel.
attribute [local semireducible] Rat.mul Rat.add Rat.sub Rat.inv Rat.ofScientific

/-! ## Python-like primitive helpers -/

/-- ASCII whitespace, the portion of the Python `\s` class and of
`str.strip` that the repository inputs can contain. -/
def isPyWs (c : Char) : Bool :=
  c = ' ' || c = '\t' || c = '\n' || c = '\r' || c = '\x0b' || c = '\x0c'

/-- Python regex word character `\w` (ASCII portion). -/
def isWordChar (c : Char) : Bool :=
  c.isAlphanum || c = '_'

/-- A word boundary exists before a word character when the previous
character (if any) is not a word character. -/
def boundaryBefore : Option Char → Bool
  | none => true
  | some c => !isWordChar c

/-- A word boundary exists after a word character when the next character
(if any) is not a word character. -/
def boundaryAfter : List Char → Bool
  | [] => true
  | c :: _ => !isWordChar c

/-- Source `str.strip()` on a character list (ASCII whitespace). -/
def pyStripL (l : List Char) : List Char :=
  ((l.dropWhile isPyWs).reverse.dropWhile isPyWs).reverse

def pyStrip (s : String) : String :=
  ⟨pyStripL s.data⟩

/-- Source `str.lower()` (ASCII case folding; non-ASCII characters appearing in
the inputs, such as currency signs, are case-invariant). -/
def pyLower (s : String) : String :=
  ⟨s.data.map Char.toLower⟩

/-- Substring containment, `needle in haystack` in Python. -/
def containsSub (haystack needle : List Char) : Bool :=
  match haystack with
  | [] => needle.isEmpty
  | _ :: rest => needle.isPrefixOf haystack || containsSub rest needle

/-- Source `"c" in s` for a single character. -/
def containsChar (l : List Char) (c : Char) : Bool :=
  l.contains c

/-- Numeric value of a digit run. -/
def digitsToNat (l : List Char) : Nat :=
  l.foldl (fun acc c => acc * 10 + (c.toNat - '0'.toNat)) 0

/-- Python `float()` applied to a string made of an optional sign followed
by digits and at most one dot (the only shapes that reach it in the
embedded call sites): `[+-]? (digits [. digits*] | . digits+)`.
Returns `none` where Python raises `ValueError`. -/
def pyFloat? (l : List Char) : Option ℚ :=
  let (sign, l1) : ℚ × List Char :=
    match l with
    | '-' :: t => (-1, t)
    | '+' :: t => (1, t)
    | _ => (1, l)
  let ip := l1.takeWhile Char.isDigit
  let rest := l1.drop ip.length
  match rest with
  | [] =>
      if ip.isEmpty then none
      else some (sign * (digitsToNat ip : ℚ))
  | '.' :: fp0 =>
      let fp := fp0.takeWhile Char.isDigit
      if fp0.length ≠ fp.length then none
      else if ip.isEmpty && fp.isEmpty then none
      else some (sign * ((digitsToNat ip : ℚ) + (digitsToNat fp : ℚ) / (10 : ℚ) ^ fp.length))
  | _ => none

/-- Python `int()` applied to a string: optional sign plus a digit run. -/
def pyIntOfStr? (l : List Char) : Option ℤ :=
  let (sign, l1) : ℤ × List Char :=
    match l with
    | '-' :: t => (-1, t)
    | '+' :: t => (1, t)
    | _ => (1, l)
  if l1.isEmpty || !l1.all Char.isDigit then none
  else some (sign * (digitsToNat l1 : ℤ))

/-- Python `int(float)`: truncation toward zero. -/
def truncToInt (q : ℚ) : ℤ :=
  q.num.tdiv q.den

/-- Floor of a rational, computed on the normalized representation. -/
def ratFloor (q : ℚ) : ℤ :=
  q.num.ediv q.den

/-- Python `round(x)`: round half to even. -/
def pyRound (q : ℚ) : ℤ :=
  let f := ratFloor q
  let r := q - (f : ℚ)
  if r < 1 / 2 then f
  else if 1 / 2 < r then f + 1
  else if f % 2 = 0 then f else f + 1

/-- Python `round(x, 2)`. -/
def pyRound2 (q : ℚ) : ℚ :=
  (pyRound (q * 100) : ℚ) / 100

/-! ## Hand-translated regular-expression scanners

Each scanner mirrors one compiled pattern of the sources with Python
`re.search` leftmost-match semantics: positions are tried left to right
and at each position the pattern is matched greedily.  For every pattern
below the greedy match cannot be shortened into a successful backtrack
(the character classes exclude the respective follow characters), so the
scan is equivalent to the backtracking engine. -/

def CURRENCY_CODES : List String := ["GBP", "USD", "EUR", "AUD", "CAD", "JPY", "CHF"]

/-- Case-insensitive match of a currency code at the head of `l`, with
`\b` on both sides (pattern `\b(GBP|USD|EUR|AUD|CAD|JPY|CHF)\b`). -/
def matchesCodeAt (prev : Option Char) (l : List Char) (code : List Char) : Bool :=
  boundaryBefore prev
    && (l.take code.length).map Char.toLower = code.map Char.toLower
    && l.length ≥ code.length
    && boundaryAfter (l.drop code.length)

def searchCurrencyCodeAux : Option Char → List Char → Option String
  | _, [] => none
  | prev, c :: rest =>
      match CURRENCY_CODES.find? (fun code => matchesCodeAt prev (c :: rest) code.data) with
      | some code => some code
      | none => searchCurrencyCodeAux (some c) rest

/-- Source `re.search(r"\b(GBP|USD|EUR|AUD|CAD|JPY|CHF)\b", s, re.I)`, returning
`m.group(1).upper()`. -/
def searchCurrencyCode (l : List Char) : Option String :=
  searchCurrencyCodeAux none l

def hasKmWordAux : Option Char → List Char → Bool
  | _, [] => false
  | prev, c :: rest =>
      (boundaryBefore prev && c = 'k'
        && (match rest with
            | 'm' :: r2 => boundaryAfter r2
            | _ => false))
      || hasKmWordAux (some c) rest

/-- Source `re.search(r'\bkm\b|kilomet', s)` on an already lower-cased string. -/
def hasKmPattern (l : List Char) : Bool :=
  hasKmWordAux none l || containsSub l "kilomet".data

/-- Character class `[0-9,.kK]` of the mileage range pattern. -/
def mileRangeChar (c : Char) : Bool :=
  c.isDigit || c = ',' || c = '.' || c = 'k' || c = 'K'

/-- Dash alternatives `[-–—]` of the mileage range pattern. -/
def isDashChar (c : Char) : Bool :=
  c = '-' || c = '–' || c = '—'

def rangeAttempt (l : List Char) : Option (List Char × List Char) :=
  let r1 := l.takeWhile mileRangeChar
  if r1.isEmpty then none else
  match (l.drop r1.length).dropWhile isPyWs with
  | d :: l3 =>
      if isDashChar d then
        let r2 := (l3.dropWhile isPyWs).takeWhile mileRangeChar
        if r2.isEmpty then none else some (r1, r2)
      else none
  | [] => none

/-- Source `re.search(r'([0-9,.kK]+)\s*[-–—]\s*([0-9,.kK]+)', s)`, returning the
two groups. -/
def searchRange : List Char → Option (List Char × List Char)
  | [] => none
  | c :: rest => rangeAttempt (c :: rest) <|> searchRange rest

/-- Character class `[0-9,.]`. -/
def mileNumChar (c : Char) : Bool :=
  c.isDigit || c = ',' || c = '.'

/-- Source `re.search(r'([0-9,.]+)\s*(k)?', s)` on a lower-cased string: returns
`(group(1), group(2) is not None)`. -/
def searchNumericTok : List Char → Option (List Char × Bool)
  | [] => none
  | c :: rest =>
      if mileNumChar c then
        let run := (c :: rest).takeWhile mileNumChar
        let after := ((c :: rest).drop run.length).dropWhile isPyWs
        some (run, after.head? = some 'k')
      else searchNumericTok rest

/-- Source `re.search(r'([0-9,.]+)\s*k', s, re.I)` on a lower-cased string:
returns `group(1)`. -/
def searchNumBeforeK : List Char → Option (List Char)
  | [] => none
  | c :: rest =>
      (if mileNumChar c then
        let run := (c :: rest).takeWhile mileNumChar
        let after := ((c :: rest).drop run.length).dropWhile isPyWs
        if after.head? = some 'k' then some run else none
      else none) <|> searchNumBeforeK rest

/-- A `19\d{2}|20\d{2}` match starting exactly here. -/
def year4At (l : List Char) : Option ℤ :=
  match l with
  | c1 :: c2 :: c3 :: c4 :: _ =>
      if ((c1 = '1' && c2 = '9') || (c1 = '2' && c2 = '0')) && c3.isDigit && c4.isDigit then
        some (digitsToNat [c1, c2, c3, c4] : ℤ)
      else none
  | _ => none

/-- Source `re.search(r"\b(19\d{2}|20\d{2})\b", s)` (templates/utils.py). -/
def searchYear4Bounded : Option Char → List Char → Option ℤ
  | _, [] => none
  | prev, c :: rest =>
      (match year4At (c :: rest) with
       | some y =>
          if boundaryBefore prev && boundaryAfter ((c :: rest).drop 4) then some y else none
       | none => none)
      <|> searchYear4Bounded (some c) rest

/-- Source `_YEAR_RE.search(s)` with `_YEAR_RE = re.compile(r'(19\d{2}|20\d{2})')`
(schema_normalizer.py, no word boundaries). -/
def searchYear4Anywhere : List Char → Option ℤ
  | [] => none
  | c :: rest => year4At (c :: rest) <|> searchYear4Anywhere rest

/-- Source `re.search(r"\b(\d{2})\b", s)`. -/
def searchYear2Bounded : Option Char → List Char → Option ℤ
  | _, [] => none
  | prev, c :: rest =>
      (match rest with
       | b :: r2 =>
          if boundaryBefore prev && c.isDigit && b.isDigit && boundaryAfter r2 then
            some (digitsToNat [c, b] : ℤ)
          else none
       | _ => none)
      <|> searchYear2Bounded (some c) rest

/-! ## Python values and dictionaries

`PyVal` models the JSON-decoded Python values flowing through the
extraction pipeline; `Record` models a `dict` (unique keys, insertion
order, in-place overwrite on assignment). -/

inductive PyVal where
  | vnone
  | vbool (b : Bool)
  | vint (n : ℤ)
  | vfloat (q : ℚ)
  | vstr (s : String)
  | vlist (elems : List PyVal)
  | vdict (fields : List (String × PyVal))
deriving Inhabited

mutual

/-- Size of a value, used as the recursion bound of `_extract_text`
below (the automatically derived `SizeOf` of a nested inductive has no
executable code, so an explicit one is needed). -/
def pyValSize : PyVal → Nat
  | .vnone => 1
  | .vbool _ => 1
  | .vint _ => 1
  | .vfloat _ => 1
  | .vstr _ => 1
  | .vlist l => 1 + pyValSizeL l
  | .vdict f => 1 + pyValSizeF f

def pyValSizeL : List PyVal → Nat
  | [] => 1
  | x :: t => 1 + pyValSize x + pyValSizeL t

def pyValSizeF : List (String × PyVal) → Nat
  | [] => 1
  | (_, v) :: t => 1 + pyValSize v + pyValSizeF t

end

abbrev Record := List (String × PyVal)

/-- Python truthiness. -/
def truthy : PyVal → Bool
  | .vnone => false
  | .vbool b => b
  | .vint n => n ≠ 0
  | .vfloat q => q ≠ 0
  | .vstr s => !s.isEmpty
  | .vlist l => !l.isEmpty
  | .vdict f => !f.isEmpty

/-- Placeholder rendering for `str(float)`; no claim evaluates `str()` on a
float, a list or a dict, so only the `None`/`bool`/`int`/`str` branches of
`pyStr` below are semantically load-bearing. -/
def pyFloatRepr (q : ℚ) : String :=
  if q.den = 1 then toString q.num ++ ".0"
  else toString q.num ++ "/" ++ toString q.den

/-- Python `str()`. -/
def pyStr : PyVal → String
  | .vnone => "None"
  | .vbool b => if b then "True" else "False"
  | .vint n => toString n
  | .vfloat q => pyFloatRepr q
  | .vstr s => s
  | .vlist _ => "<list>"
  | .vdict _ => "<dict>"

/-- Source `d.get(k)` on the underlying association list, `None` when absent.
Keys are unique in every record the pipeline builds, so first-match lookup
coincides with Python dict lookup. -/
def dictGetOpt : Record → String → Option PyVal
  | [], _ => none
  | (k', v) :: t, k => if k' = k then some v else dictGetOpt t k

def pyGetR (d : Record) (k : String) : PyVal :=
  (dictGetOpt d k).getD .vnone

/-- Source `v.get(k)`; calling `.get` on a non-dict would raise in Python and is
never reached by the embedded flows. -/
def pyGet (v : PyVal) (k : String) : PyVal :=
  match v with
  | .vdict f => pyGetR f k
  | _ => .vnone

/-- Source `k in d`. -/
def hasKey (d : Record) (k : String) : Bool :=
  (dictGetOpt d k).isSome

/-- Source `d[k] = v`: overwrite in place, else append. -/
def dictSet : Record → String → PyVal → Record
  | [], k, v => [(k, v)]
  | (k', v') :: t, k, v =>
      if k' = k then (k, v) :: t else (k', v') :: dictSet t k v

def dictKeys (d : Record) : List String :=
  d.map Prod.fst

/-- Source `d.update(m)`. -/
def dictUpdate (d : Record) (m : Record) : Record :=
  m.foldl (fun acc p => dictSet acc p.1 p.2) d

/-- Source `a or b`. -/
def pyOr (a b : PyVal) : PyVal :=
  if truthy a then a else b

/-- Source `a and b`. -/
def pyAnd (a b : PyVal) : PyVal :=
  if truthy a then b else a

/-- Source `a or None`. -/
def pyOrNone (a : PyVal) : PyVal :=
  if truthy a then a else .vnone

def ofStrOpt : Option String → PyVal
  | some s => .vstr s
  | none => .vnone

def ofIntOpt : Option ℤ → PyVal
  | some n => .vint n
  | none => .vnone

def ofQOpt : Option ℚ → PyVal
  | some q => .vfloat q
  | none => .vnone

def isNoneV : PyVal → Bool
  | .vnone => true
  | _ => false

def isDictV : PyVal → Bool
  | .vdict _ => true
  | _ => false

def asStr? : PyVal → Option String
  | .vstr s => some s
  | _ => none

def asInt? : PyVal → Option ℤ
  | .vint n => some n
  | _ => none

def asQ? : PyVal → Option ℚ
  | .vfloat q => some q
  | _ => none

/-! ## Field normalizers of `templates/utils.py` -/

namespace TemplatesUtils

/-- Character class of the first deletion pass of `parse_price`:
`[A-Za-z£$€¥,\s]`. -/
def priceLetterSym (c : Char) : Bool :=
  ('A' ≤ c && c ≤ 'Z') || ('a' ≤ c && c ≤ 'z')
    || c = '£' || c = '$' || c = '€' || c = '¥' || c = ',' || isPyWs c

/-- Complement class of the second deletion pass: `[^0-9.\-]` is removed. -/
def priceKeep (c : Char) : Bool :=
  c.isDigit || c = '.' || c = '-'

/-- Source `templates/utils.py parse_price`.  Both `re.sub` passes delete the
matched text (the replacement lambda returns the empty string on every
branch, since the matched class contains no digits). -/
def parse_price (txt : PyVal) : Option ℚ × Option String :=
  if !truthy txt then (none, none) else
  let s0 := pyStripL (pyStr txt).data
  let cur0 := searchCurrencyCode s0
  let p1 := if s0.head? = some '£' then (cur0 <|> some "GBP", s0.dropWhile (· = '£')) else (cur0, s0)
  let p2 := if p1.2.head? = some '$' then (p1.1 <|> some "USD", p1.2.dropWhile (· = '$')) else p1
  let p3 := if p2.2.head? = some '€' then (p2.1 <|> some "EUR", p2.2.dropWhile (· = '€')) else p2
  let s4 := p3.2.filter (fun c => !priceLetterSym c)
  let s5 := s4.filter priceKeep
  if s5.isEmpty then (none, p3.1)
  else
    match pyFloat? s5 with
    | some amt => (some amt, p3.1)
    | none => (none, p3.1)

/-- Source `templates/utils.py parse_mileage`.  Returns `(value, unit)` with unit
string `"mi"` exactly as the source does. -/
def parse_mileage (txt : PyVal) : Option ℤ × Option String :=
  if !truthy txt then (none, none) else
  let s := (pyStripL (pyStr txt).data).map Char.toLower
  let is_km := hasKmPattern s
  let step :=
    match searchRange s with
    | some (left, right) =>
        some (if containsChar right 'k' && !containsChar left 'k' then left ++ ['k'] else left, true)
    | none =>
        match searchNumericTok s with
        | none => none
        | some (run, _kmark) => some (run, false)
  match step with
  | none => (none, none)
  | some (sval, usedRange) =>
    let has_k := containsChar sval 'k' || (!usedRange && containsChar s 'k')
    let base : Option ℚ :=
      if has_k then
        match searchNumBeforeK (sval ++ ['k']) with
        | some run => (pyFloat? (run.filter (· ≠ ','))).map (· * 1000)
        | none => none
      else pyFloat? (sval.filter (· ≠ ','))
    match base with
    | none => (none, none)
    | some b =>
      let v := pyRound b
      (some (if is_km then pyRound ((v : ℚ) * (621371 / 1000000)) else v), some "mi")

/-- Source `templates/utils.py parse_year`: word-bounded `19xx|20xx` token checked
against the constant range 1900..2030, falling through to a word-bounded
2-digit token mapped below/above 30. -/
def parse_year (txt : PyVal) : Option ℤ :=
  if !truthy txt then none else
  let s := (pyStr txt).data
  let y4 : Option ℤ :=
    match searchYear4Bounded none s with
    | some y => if 1900 ≤ y && y ≤ 2030 then some y else none
    | none => none
  match y4 with
  | some y => some y
  | none =>
    match searchYear2Bounded none s with
    | some yy => some (if yy ≤ 30 then 2000 + yy else 1900 + yy)
    | none => none

end TemplatesUtils

/-! ## `utils/schema_normalizer.py` -/

namespace SchemaNormalizer

/-- Models the module-level `_CURRENT_YEAR = datetime.now().year` cache
(the only wall-clock dependence of the core), frozen at 2026. -/
def CURRENT_YEAR : ℤ := 2026

/-- Character class of `_PRICE_RE = re.compile(r'[-€£$£,\s]+')`
(`£` is the pound sign again). -/
def priceStripSchema (c : Char) : Bool :=
  c = '-' || c = '€' || c = '£' || c = '$' || c = ',' || isPyWs c

/-- Source `SchemaNormalizer.normalize_price`. -/
def normalize_price (v : PyVal) : Option ℤ :=
  match v with
  | .vnone => none
  | .vint n => some n
  | .vbool b => some (if b then 1 else 0)
  | .vfloat q => some (truncToInt q)
  | _ =>
    let s := pyStripL (pyStr v).data
    if s.isEmpty then none else
    let cleaned := s.filter (fun c => !priceStripSchema c)
    if cleaned.isEmpty then none
    else if containsChar cleaned '.' then (pyFloat? cleaned).map truncToInt
    else pyIntOfStr? cleaned

/-- Source `SchemaNormalizer.normalize_mileage`. -/
def normalize_mileage (v : PyVal) : Option ℤ :=
  match v with
  | .vnone => none
  | .vint n => some n
  | .vbool b => some (if b then 1 else 0)
  | .vfloat q => some (truncToInt q)
  | _ =>
    let s := (pyStripL (pyStr v).data).map Char.toLower
    if s.isEmpty then none else
    let is_km := hasKmPattern s
    let step :=
      match searchRange s with
      | some (left, right) =>
          some (if containsChar right 'k' && !containsChar left 'k' then left ++ ['k'] else left, false)
      | none =>
          let cleaned := s.filter (fun c => !(c = ',' || isPyWs c))
          match searchNumericTok cleaned with
          | none => none
          | some (run, km) => some (run, km)
    match step with
    | none => none
    | some (sval, kmark) =>
      let has_k := containsChar sval 'k' || kmark
      let num : Option ℚ :=
        if has_k then (pyFloat? ((sval.filter (· ≠ ',')).filter (· ≠ 'k'))).map (· * 1000)
        else pyFloat? (sval.filter (· ≠ ','))
      match num with
      | none => none
      | some q =>
        let vi := pyRound q
        some (if is_km then pyRound ((vi : ℚ) * (621371 / 1000000)) else vi)

/-- Source `SchemaNormalizer.normalize_year`: unbounded `19xx|20xx` search, 2-digit
fallback only when no 4-digit-shaped token exists, final range check against
`_CURRENT_YEAR + 1` applied to every path (including the `int` pass-through
and the 2-digit fallback). -/
def normalize_year (v : PyVal) : Option ℤ :=
  let yearOpt : Option ℤ :=
    match v with
    | .vnone => none
    | .vint n => some n
    | .vbool b => some (if b then 1 else 0)
    | _ =>
      let s := pyStripL (pyStr v).data
      if s.isEmpty then none else
      match searchYear4Anywhere s with
      | some y => some y
      | none =>
        match searchYear2Bounded none s with
        | some yy => some (if yy ≤ 30 then 2000 + yy else 1900 + yy)
        | none => none
  match yearOpt with
  | none => none
  | some y => if 1900 ≤ y && y ≤ CURRENT_YEAR + 1 then some y else none

/-- Wrapper `parse_price` of `schema_normalizer.py`: amount from
`normalize_price`, currency from `_CURRENCY_RE` or a leading symbol on the
raw (unstripped) text, symbol checks only when no code word was found. -/
def parse_price (txt : PyVal) : Option ℤ × Option String :=
  if !truthy txt then (none, none) else
  let amt := normalize_price txt
  let cur : Option String :=
    match txt with
    | .vstr s =>
        match searchCurrencyCode s.data with
        | some c => some c
        | none =>
            if s.data.head? = some '£' then some "GBP"
            else if s.data.head? = some '$' then some "USD"
            else if s.data.head? = some '€' then some "EUR"
            else none
    | _ => none
  (amt, cur)

/-- Wrapper `parse_mileage` of `schema_normalizer.py`. -/
def parse_mileage (txt : PyVal) : Option ℤ × Option String :=
  match normalize_mileage txt with
  | some v => (some v, some "mi")
  | none => (none, none)

/-- Wrapper `parse_year` of `schema_normalizer.py`. -/
def parse_year (txt : PyVal) : Option ℤ :=
  normalize_year txt

end SchemaNormalizer

/-! ## JSON-LD object extraction (`templates/utils.py extract_jsonld_objects`)

The function locates `<script type="application/ld+json">` blocks and
decodes each with `json.loads` (retrying one level of
`window.X = {...}` assignment wrapping); blocks that fail to decode are
skipped.  The embedding starts from the list of successfully decoded
payloads and models the flattening loop: a top-level JSON array
contributes its dict elements, a dict contributes itself, and scalar
payloads are dropped.  Note that a dict is kept whole: `@graph`
containers are *not* expanded here. -/

namespace TemplatesUtils

def extract_jsonld_objects (decoded : List PyVal) : List PyVal :=
  decoded.flatMap (fun d =>
    match d with
    | .vlist items => items.filter isDictV
    | .vdict f => [.vdict f]
    | _ => [])

/-! ### `finalize_detail_output` -/

/-- The `or` chain computing the `raw` field. -/
def rawChain (out : Record) : PyVal :=
  pyOr (pyOr (pyOr (pyOr (pyGetR out "raw") (pyGetR out "_raw"))
    (pyGetR out "_raw_jsonld")) (pyGetR out "_raw_vehicle")) (pyGetR out "specs")

/-- The price-handling block of `finalize_detail_output` (assigns
`currency` inside the fallback branch, then `price_value`, `price_raw`
and the final `currency` normalization, in source order). -/
def priceStep (out : Record) : Record :=
  let price_value0 := pyGetR out "price_value"
  let price_raw := pyOr (pyGetR out "price_raw") (pyGetR out "price")
  let step : PyVal × Record :=
    if isNoneV price_value0 then
      match pyGetR out "price" with
      | .vint n => (.vfloat (n : ℚ), out)
      | .vfloat q => (.vfloat q, out)
      | .vbool b => (.vfloat (if b then 1 else 0), out)
      | _ =>
        let ac := parse_price price_raw
        let out' := if !truthy (pyGetR out "currency")
                    then dictSet out "currency" (ofStrOpt ac.2) else out
        (ofQOpt ac.1, out')
    else (price_value0, out)
  let out1 := dictSet step.2 "price_value" step.1
  let out2 := dictSet out1 "price_raw" price_raw
  dictSet out2 "currency" (pyOrNone (pyGetR out2 "currency"))

/-- The mileage-handling block of `finalize_detail_output`, including the
conditional-expression precedence of the source:
`mtxt = (out.get('mileage') or (specs and specs.get('mileage')))` when
`specs` is a dict, else `out.get('mileage')`. -/
def mileageStep (out : Record) : Record :=
  let m_val0 := pyGetR out "mileage_value"
  let m_unit0 := pyGetR out "mileage_unit"
  let mm : PyVal × PyVal :=
    if isNoneV m_val0 then
      let specsV := pyGetR out "specs"
      let mtxt := if isDictV specsV
                  then pyOr (pyGetR out "mileage") (pyAnd specsV (pyGet specsV "mileage"))
                  else pyGetR out "mileage"
      if truthy mtxt then
        let mv := parse_mileage mtxt
        (ofIntOpt mv.1, ofStrOpt mv.2)
      else (m_val0, m_unit0)
    else (m_val0, m_unit0)
  dictSet (dictSet out "mileage_value" mm.1) "mileage_unit" mm.2

/-- Source `templates/utils.py finalize_detail_output`, translated assignment by
assignment.  `dict(data or {})` copies the input (a falsy input dict has
no entries, so the `or {}` is content-preserving). -/
def finalize_detail_output (data : Record) : Record :=
  let out0 := data
  let out1 := dictSet out0 "raw" (rawChain out0)
  let out2 := dictSet out1 "description"
    (pyOrNone (pyOr (pyGetR out1 "description") (pyGetR out1 "desc")))
  let out3 := dictSet out2 "brand" (pyOrNone (pyGetR out2 "brand"))
  let out4 := dictSet out3 "model" (pyOrNone (pyGetR out3 "model"))
  let yearV :=
    if !truthy (pyGetR out4 "year") then
      ofIntOpt (parse_year (pyOr (pyGetR out4 "name") (pyGetR out4 "title")))
    else pyGetR out4 "year"
  let out5 := dictSet out4 "year" yearV
  let out6 := priceStep out5
  let out7 := mileageStep out6
  let out8 := dictSet out7 "fuel" (pyOrNone (pyGetR out7 "fuel"))
  dictSet out8 "transmission" (pyOrNone (pyGetR out8 "transmission"))

/-- The canonical key set named by the docstring of
`finalize_detail_output` and by the spec data model. -/
def CANONICAL_KEYS : List String :=
  ["brand", "model", "year", "price_value", "price_raw", "currency",
   "mileage_value", "mileage_unit", "fuel", "transmission", "description", "raw"]

end TemplatesUtils

/-! ## `engine.py`: JSON-LD vehicle type test and the template detector -/

namespace Engine

/-- Source `engine.py VEHICLE_TYPE_NAMES`. -/
def VEHICLE_TYPE_NAMES : List String := ["vehicle", "car", "automobile", "vehiclemodel"]

/-- Source `t.split(sep)[-1]`: the suffix after the last occurrence of `sep`
(the whole string when `sep` does not occur). -/
def afterLastChar (sep : Char) (l : List Char) : List Char :=
  (l.reverse.takeWhile (· ≠ sep)).reverse

/-- Source `t.split('/')[-1].split('#')[-1].lower()`. -/
def localTypeNameLower (t : String) : String :=
  ⟨(afterLastChar '#' (afterLastChar '/' t.data)).map Char.toLower⟩

/-- Source `engine.py _extract_jsonld_type_names`. -/
def _extract_jsonld_type_names (tv : PyVal) : List String :=
  match tv with
  | .vstr t => [localTypeNameLower t]
  | .vlist ts => ts.filterMap (fun x =>
      match x with
      | .vstr t => some (localTypeNameLower t)
      | _ => none)
  | _ => []

/-- Source `engine.py _is_jsonld_vehicle`. -/
def _is_jsonld_vehicle (obj : PyVal) : Bool :=
  match obj with
  | .vdict f =>
      let tv := pyGetR f "@type"
      if !truthy tv then false
      else (_extract_jsonld_type_names tv).any (fun t => VEHICLE_TYPE_NAMES.contains t)
  | _ => false

/-- The ten template names of the authoritative registry
(`templates/all_templates.py ALL_TEMPLATES`). -/
inductive TName where
  | detail_hybrid_json_html
  | detail_jsonld_vehicle
  | detail_inline_html_blocks
  | detail_html_spec_table
  | listing_image_grid
  | listing_card
  | listing_section
  | pagination_query
  | pagination_path
  | dealer_info_jsonld
deriving DecidableEq, Repr

inductive TCat where
  | detail
  | listing
  | pagination
  | dealer
deriving DecidableEq, Repr

/-- Category of each template; `detect` pairs every candidate with exactly
this category string when it appends it. -/
def categoryOf : TName → TCat
  | .detail_hybrid_json_html => .detail
  | .detail_jsonld_vehicle => .detail
  | .detail_inline_html_blocks => .detail
  | .detail_html_spec_table => .detail
  | .listing_image_grid => .listing
  | .listing_card => .listing
  | .listing_section => .listing
  | .pagination_query => .pagination
  | .pagination_path => .pagination
  | .dealer_info_jsonld => .dealer

/-- Source `TemplateDetector.TYPE_PRIORITY`. -/
def TYPE_PRIORITY : TCat → Nat
  | .detail => 3
  | .listing => 2
  | .pagination => 1
  | .dealer => 0

/-- Registration order (`ALL_TEMPLATES`), used by the final tie-breaker. -/
def ALL_TEMPLATES : List TName :=
  [.detail_hybrid_json_html, .detail_jsonld_vehicle, .detail_inline_html_blocks,
   .detail_html_spec_table, .listing_image_grid, .listing_card, .listing_section,
   .pagination_query, .pagination_path, .dealer_info_jsonld]

/-- A candidate `(template, normalized score)`; the category recorded in
the source tuple is always `categoryOf` of the template. -/
abbrev Cand := TName × ℚ

/-- The per-document inputs of `TemplateDetector.detect`, at the modelling
boundary: the decoded JSON-LD payloads plus the signals and capability
results that the detector derives from the parsed soup (`has_table`, the
extra spec selectors, meta price, a year in the title, microdata presence,
the listing-URL counts of the three listing templates and the next-page
probes of the two pagination templates). -/
structure DocFeatures where
  jsonldDecoded : List PyVal
  hasTable : Bool
  hasSpecSelectors : Bool
  hasPriceMeta : Bool
  hasTitleYear : Bool
  hasMicrodata : Bool
  imageGridUrlCount : Nat
  cardUrlCount : Nat
  sectionUrlCount : Nat
  pagQueryNext : Bool
  pagPathNext : Bool

/-- Source `min(score, DETAIL_SCORE_MAX) / DETAIL_SCORE_MAX * 10`. -/
def normalizeDetailScore (score : Nat) : ℚ :=
  ((min score 6 : ℕ) : ℚ) / 6 * 10

/-- Source `min(count, LISTING_SCORE_MAX) / LISTING_SCORE_MAX * 10`. -/
def normalizeListingScore (count : Nat) : ℚ :=
  ((min count 5 : ℕ) : ℚ) / 5 * 10

/-- The additive heuristic scores of the four detail templates, in the
insertion order of the `DETAIL_TEMPLATES` dict. -/
def detailBaseScores (d : DocFeatures) : List (TName × Nat) :=
  let hasSpecs := d.hasTable || d.hasSpecSelectors
  let hasJV := (TemplatesUtils.extract_jsonld_objects d.jsonldDecoded).any _is_jsonld_vehicle
  [ (.detail_hybrid_json_html,
      (if hasJV && hasSpecs then 3 else 0) + (if d.hasPriceMeta then 1 else 0)),
    (.detail_jsonld_vehicle,
      (if hasJV then 2 else 0) + (if d.hasPriceMeta then 2 else 0)),
    (.detail_inline_html_blocks,
      (if d.hasTitleYear then 2 else 0) + (if d.hasMicrodata then 2 else 0)
        + (if hasSpecs then 1 else 0)),
    (.detail_html_spec_table, if d.hasTable then 1 else 0) ]

def detailCands (d : DocFeatures) : List Cand :=
  (detailBaseScores d).filterMap (fun p =>
    if 0 < p.2 then some (p.1, normalizeDetailScore p.2) else none)

/-- Listing candidates: a listing template with a non-empty URL list scores
`normalizeListingScore` of its count.  `LISTING_TEMPLATES` is a Python set
whose iteration order is unspecified; the literal order is used here, and
the tie-breaking below makes the final selection independent of it. -/
def listingCands (d : DocFeatures) : List Cand :=
  ([(.listing_image_grid, d.imageGridUrlCount), (.listing_card, d.cardUrlCount),
    (.listing_section, d.sectionUrlCount)] : List (TName × Nat)).filterMap (fun p =>
      if 0 < p.2 then some (p.1, normalizeListingScore p.2) else none)

/-- Pagination candidates score the constant `PAGINATION_SCORE = 2`. -/
def pagCands (d : DocFeatures) : List Cand :=
  ([(.pagination_query, d.pagQueryNext), (.pagination_path, d.pagPathNext)]
    : List (TName × Bool)).filterMap (fun p =>
      if p.2 then some (p.1, (2 : ℚ)) else none)

/-- Source `'Organization' in str(o.get('@type', ''))` or the same for
`'AutomotiveBusiness'`, over the extracted JSON-LD objects. -/
def hasOrgObject (d : DocFeatures) : Bool :=
  (TemplatesUtils.extract_jsonld_objects d.jsonldDecoded).any (fun o =>
    match o with
    | .vdict f =>
        let ts := (pyStr ((dictGetOpt f "@type").getD (.vstr ""))).data
        containsSub ts "Organization".data || containsSub ts "AutomotiveBusiness".data
    | _ => false)

/-- The dealer template scores the constant `DEALER_SCORE = 3` when an
Organization-typed object is present. -/
def dealerCands (d : DocFeatures) : List Cand :=
  if hasOrgObject d then [(.dealer_info_jsonld, (3 : ℚ))] else []

/-- The candidate list of `detect`, in construction order. -/
def candidatesOf (d : DocFeatures) : List Cand :=
  detailCands d ++ listingCands d ++ pagCands d ++ dealerCands d

/-- Source `max(score for _, _, score in candidates)` (all candidate scores are
positive, so the 0 seed never wins). -/
def foldMaxScore (l : List Cand) : ℚ :=
  l.foldr (fun c m => max c.2 m) 0

def foldMaxPrio (l : List Cand) : Nat :=
  l.foldr (fun c m => max (TYPE_PRIORITY (categoryOf c.1)) m) 0

/-- The selection logic at the end of `TemplateDetector.detect`: maximum
score, then category priority, then first match in registration order. -/
def select (cands : List Cand) : Option TName :=
  match cands with
  | [] => none
  | _ :: _ =>
    let maxScore := foldMaxScore cands
    let best := cands.filter (fun c => decide (c.2 = maxScore))
    if best.length = 1 then best.head?.map Prod.fst
    else
      let prio := foldMaxPrio best
      let pc := best.filter (fun c => decide (TYPE_PRIORITY (categoryOf c.1) = prio))
      if pc.length = 1 then pc.head?.map Prod.fst
      else
        match ALL_TEMPLATES.find? (fun n => pc.any (fun c => decide (c.1 = n))) with
        | some n => some n
        | none => pc.head?.map Prod.fst

/-- Source `TemplateDetector.detect`, from the signal boundary on. -/
def detect (d : DocFeatures) : Option TName :=
  select (candidatesOf d)

/-- String names of the templates (`cls.name`). -/
def templateNameStr : TName → String
  | .detail_hybrid_json_html => "detail_hybrid_json_html"
  | .detail_jsonld_vehicle => "detail_jsonld_vehicle"
  | .detail_inline_html_blocks => "detail_inline_html_blocks"
  | .detail_html_spec_table => "detail_html_spec_table"
  | .listing_image_grid => "listing_image_grid"
  | .listing_card => "listing_card"
  | .listing_section => "listing_section"
  | .pagination_query => "pagination_query"
  | .pagination_path => "pagination_path"
  | .dealer_info_jsonld => "dealer_info_jsonld"

/-- Source `detail_names` of `ScraperEngine.scrape_file`. -/
def detailNames : List TName :=
  [.detail_jsonld_vehicle, .detail_html_spec_table, .detail_hybrid_json_html,
   .detail_inline_html_blocks]

/-- The per-document output of `ScraperEngine.scrape_file` (listing URLs
omitted; the claims under verification concern `template`, `car` and
`dealer`). -/
structure ScrapeOut where
  template : String
  car : Option Record
  dealer : Option Record

/-- The post-detection logic of `ScraperEngine.scrape_file`: `parsed`
models `tpl.parse_car_page` results (`none` for a `NotImplementedError`). -/
def scrape_outcome (d : DocFeatures) (parsed : TName → Option Record) : ScrapeOut :=
  match detect d with
  | none => { template := "no_template", car := none, dealer := none }
  | some t =>
      { template := templateNameStr t,
        car := if detailNames.contains t then parsed t else none,
        dealer := if t = .dealer_info_jsonld then parsed t else none }

end Engine

/-! ## `templates/jsonld_vehicle.py` (Structured-Data Vehicle strategy) -/

theorem pyValSize_pos (v : PyVal) : 0 < pyValSize v := by
  cases v <;> simp [pyValSize]

theorem pyValSizeF_pos (f : Record) : 0 < pyValSizeF f := by
  cases f with
  | nil => simp [pyValSizeF]
  | cons hd tl =>
      obtain ⟨k, v⟩ := hd
      simp [pyValSizeF]

theorem pyValSize_dictGetOpt_le (f : Record) (k : String) :
    pyValSize ((dictGetOpt f k).getD PyVal.vnone) ≤ pyValSizeF f := by
  induction f with
  | nil => simp [dictGetOpt, pyValSize, pyValSizeF]
  | cons hd tl ih =>
      obtain ⟨k', v⟩ := hd
      simp only [dictGetOpt]
      split
      · simp only [Option.getD_some, pyValSizeF]
        omega
      · simp only [pyValSizeF]
        omega

theorem pyValSize_pyGetR_lt (f : Record) (k : String) :
    pyValSize (pyGetR f k) < pyValSize (PyVal.vdict f) := by
  have h := pyValSize_dictGetOpt_le f k
  simp only [pyGetR] at *
  simp only [pyValSize]
  omega

namespace JsonldVehicle

/-- Source `jsonld_vehicle.py _extract_text`, written with an explicit recursion
bound so the kernel can evaluate it (a well-founded definition would not
reduce): each recursive step moves to a strictly smaller value inside the
dict, so any fuel of at least `pyValSize v` computes the untruncated
result (`_extract_textFuel_congr` below). -/
def _extract_textFuel : Nat → PyVal → Option String
  | 0, _ => none
  | _ + 1, .vnone => none
  | _ + 1, .vstr s => some (pyStrip s)
  | fuel + 1, .vdict f => _extract_textFuel fuel (pyOr (pyGetR f "name") (pyGetR f "@value"))
  | _ + 1, .vbool b => some (pyStrip (pyStr (.vbool b)))
  | _ + 1, .vint n => some (pyStrip (pyStr (.vint n)))
  | _ + 1, .vfloat q => some (pyStrip (pyStr (.vfloat q)))
  | _ + 1, .vlist l => some (pyStrip (pyStr (.vlist l)))

theorem pyOr_lookup_size_lt (f : Record) :
    pyValSize (pyOr (pyGetR f "name") (pyGetR f "@value")) < pyValSize (PyVal.vdict f) := by
  have h1 := pyValSize_pyGetR_lt f "name"
  have h2 := pyValSize_pyGetR_lt f "@value"
  unfold pyOr
  split <;> omega

theorem _extract_textFuel_congr :
    ∀ (n m : Nat) (v : PyVal), pyValSize v ≤ n → pyValSize v ≤ m →
      _extract_textFuel n v = _extract_textFuel m v := by
  intro n
  induction n using Nat.strong_induction_on with
  | _ n ih =>
    intro m v hn hm
    have hv := pyValSize_pos v
    match n, m with
    | 0, _ => omega
    | _ + 1, 0 => omega
    | n' + 1, m' + 1 =>
      cases v with
      | vdict f =>
          simp only [_extract_textFuel]
          have hlt := pyOr_lookup_size_lt f
          exact ih n' (by omega) m' _ (by omega) (by omega)
      | vnone => rfl
      | vstr s => rfl
      | vbool b => rfl
      | vint k => rfl
      | vfloat q => rfl
      | vlist l => rfl

/-- Source `jsonld_vehicle.py _extract_text`. -/
def _extract_text (v : PyVal) : Option String :=
  _extract_textFuel (pyValSize v) v

/-- The defining equation of the source `_extract_text` on dicts:
recurse on `node.get('name') or node.get('@value')`. -/
theorem _extract_text_vdict (f : Record) :
    _extract_text (.vdict f)
      = _extract_text (pyOr (pyGetR f "name") (pyGetR f "@value")) := by
  unfold _extract_text
  have hlt := pyOr_lookup_size_lt f
  have hsz : pyValSize (PyVal.vdict f) = pyValSizeF f + 1 := by
    simp [pyValSize]
    omega
  have step : _extract_textFuel (pyValSize (PyVal.vdict f)) (.vdict f)
      = _extract_textFuel (pyValSizeF f)
        (pyOr (pyGetR f "name") (pyGetR f "@value")) := by
    rw [hsz]
    rfl
  rw [step]
  refine _extract_textFuel_congr _ _ _ ?_ (le_refl _)
  omega

/-- Source `jsonld_vehicle.py _is_vehicle`: whitelist `vehicle`, `car`,
`automobile` (note: no `vehiclemodel`, unlike the detector test). -/
def _is_vehicle (node : PyVal) : Bool :=
  let t := match node with
    | .vdict f => pyGetR f "@type"
    | _ => .vnone
  if !truthy t then false
  else
    let types : List String :=
      match t with
      | .vlist xs => xs.filterMap (fun x =>
          match x with
          | .vstr s => some (pyLower s)
          | _ => none)
      | other => [pyLower (pyStr other)]
    types.any (fun x =>
      (["vehicle", "car", "automobile"] : List String).contains
        ⟨Engine.afterLastChar '#' (Engine.afterLastChar '/' x.data)⟩)

/-- Source `if val and (not isinstance(val, str) or len(val.strip()) > 0)` —
one unit of the confidence core count. -/
def coreFieldCount (val : PyVal) : Nat :=
  if truthy val
      && (match val with
          | .vstr s => (pyStrip s).length > 0
          | _ => true)
  then 1 else 0

/-- Source `price_val is not None and isinstance(price_val, (int, float)) and
price_val >= 0` (Python bools are ints and are always `>= 0`). -/
def corePriceCount (p : PyVal) : Nat :=
  match p with
  | .vint n => if 0 ≤ n then 1 else 0
  | .vfloat q => if 0 ≤ q then 1 else 0
  | .vbool _ => 1
  | _ => 0

/-- The field assignments of `JSONLDVehicleTemplate.parse_car_page` for
the first vehicle-typed node found, translated assignment by assignment
(including the overwrite of `out['price']` with the parsed amount and the
schema-normalizer `parse_price`/`parse_year` calls), up to but excluding
the confidence computation. -/
def vehicleRecordBase (node : PyVal) : Record :=
  let out1 := dictSet [] "brand"
    (ofStrOpt (_extract_text (pyOr (pyOr (pyGet node "brand") (pyGet node "manufacturer"))
      (pyGet node "make"))))
  let out2 := dictSet out1 "model"
    (ofStrOpt (_extract_text (pyOr (pyGet node "model") (pyGet node "vehicleModel"))))
  let offers0 := pyOr (pyGet node "offers") (.vdict [])
  let offers :=
    match offers0 with
    | .vlist l =>
        match l with
        | x :: _ => x
        | [] => .vdict []
    | o => o
  let priceNode := pyOr (pyGet offers "price") (pyGet node "price")
  let out3 := dictSet out2 "price" (ofStrOpt (_extract_text priceNode))
  let raw_price := _extract_text priceNode
  let ac := SchemaNormalizer.parse_price (ofStrOpt raw_price)
  let out4 := dictSet out3 "price_raw" (ofStrOpt raw_price)
  let out5 := dictSet out4 "price" (ofIntOpt ac.1)
  let out6 := dictSet out5 "currency"
    (match ac.2 with
     | some c => .vstr c
     | none => ofStrOpt (_extract_text (pyGet offers "priceCurrency")))
  let out7 := dictSet out6 "name" (ofStrOpt (_extract_text (pyGet node "name")))
  let out8 := dictSet out7 "description" (ofStrOpt (_extract_text (pyGet node "description")))
  let out9 := dictSet out8 "_raw" node
  let outA := dictSet out9 "_source" (.vstr "json-ld")
  match SchemaNormalizer.parse_year (pyGetR outA "name") with
  | some yv => if yv ≠ 0 then dictSet outA "year" (.vint yv) else outA
  | none => outA

/-- The confidence core count over the already-built record: brand and
model count when truthy and (for strings) non-blank after strip; price
counts when it is a non-null number `>= 0`. -/
def coreCount (out : Record) : Nat :=
  coreFieldCount (pyGetR out "brand") + coreFieldCount (pyGetR out "model")
    + corePriceCount (pyGetR out "price")

/-- The complete record built by `JSONLDVehicleTemplate.parse_car_page`
for a vehicle node: the field assignments plus
`out['confidence'] = round(core / 3.0, 2)`. -/
def build_vehicle_record (node : PyVal) : Record :=
  let outB := vehicleRecordBase node
  dictSet outB "confidence" (.vfloat (pyRound2 ((coreCount outB : ℚ) / 3)))

/-- The `@graph` expansion of `JSONLDVehicleTemplate.parse_car_page`:
`items = item['@graph']` when that key holds a list, else `[item]`. -/
def nodesOf (item : PyVal) : List PyVal :=
  match item with
  | .vdict f =>
      if hasKey f "@graph" then
        match pyGetR f "@graph" with
        | .vlist l => l
        | _ => [item]
      else [item]
  | _ => [item]

/-- First dict node passing `_is_vehicle`, scanning items and their
`@graph` members in order. -/
def findVehicleNode (objs : List PyVal) : Option PyVal :=
  objs.findSome? (fun item => (nodesOf item).find? (fun node => isDictV node && _is_vehicle node))

/-- Source `JSONLDVehicleTemplate.parse_car_page`, from the decoded JSON-LD
payload boundary: `objs` is the result of `extract_jsonld_objects`. -/
def parse_car_page (objs : List PyVal) : Record :=
  match findVehicleNode objs with
  | some node => build_vehicle_record node
  | none => [("_source", .vstr "json-ld"), ("_raw", .vdict []), ("confidence", .vfloat 0)]

end JsonldVehicle

/-! ## `templates/detail_jsonld_vehicle.py` (canonical detail wrapper) -/

namespace DetailJsonldVehicle

/-- Source `DetailJSONLDVehicle.parse_car_page`: the JSON-LD result, then a
microdata fallback (first extracted microdata record with a price or a
name, merged with constant confidence 0.5), then a meta fallback (merged
with constant confidence 0.3; the Python float literal `0.3` is modelled
by the rational 3/10).  `microList` and `meta` are the already-extracted
results of `extract_microdata(html)` and `extract_meta_values(soup)`. -/
def parse_car_page (objs : List PyVal) (microList : List Record) (meta : Record) : Record :=
  let out := JsonldVehicle.parse_car_page objs
  let useful := truthy (pyGetR out "name") || truthy (pyGetR out "brand")
      || truthy (pyGetR out "price")
  if useful then out
  else
    match microList.find? (fun m => truthy (pyGetR m "price") || truthy (pyGetR m "name")) with
    | some micro =>
        dictUpdate out
          (dictSet (dictSet micro "_source" (.vstr "microdata-fallback")) "confidence"
            (.vfloat (1 / 2)))
    | none =>
        if !meta.isEmpty && (truthy (pyGetR meta "price") || truthy (pyGetR meta "title")) then
          dictUpdate out
            (dictSet (dictSet meta "_source" (.vstr "meta-fallback")) "confidence"
              (.vfloat (3 / 10)))
        else out

end DetailJsonldVehicle

/-! ## Helper lemmas shared by the claims -/

theorem dictKeys_cons (k0 : String) (v0 : PyVal) (t : Record) :
    dictKeys ((k0, v0) :: t) = k0 :: dictKeys t := rfl

theorem pyGetR_cons (k0 : String) (v0 : PyVal) (t : Record) (k : String) :
    pyGetR ((k0, v0) :: t) k = if k0 = k then v0 else pyGetR t k := by
  simp only [pyGetR, dictGetOpt]
  split <;> rfl

theorem hasKey_iff_mem (d : Record) (k : String) :
    hasKey d k = true ↔ k ∈ dictKeys d := by
  induction d with
  | nil => simp [hasKey, dictGetOpt, dictKeys]
  | cons hd tl ih =>
      obtain ⟨k0, v0⟩ := hd
      simp only [hasKey, dictGetOpt, dictKeys_cons, List.mem_cons]
      split
      · simp_all
      · simp only [hasKey] at ih
        rw [ih]
        constructor
        · exact Or.inr
        · rintro (rfl | h)
          · simp_all
          · exact h

theorem mem_dictKeys_dictSet (d : Record) (k' : String) (v : PyVal) (k : String) :
    k ∈ dictKeys (dictSet d k' v) ↔ k = k' ∨ k ∈ dictKeys d := by
  induction d with
  | nil => simp [dictSet, dictKeys]
  | cons hd tl ih =>
      obtain ⟨k0, v0⟩ := hd
      simp only [dictSet]
      split
      · rename_i h
        subst h
        simp only [dictKeys_cons, List.mem_cons]
        tauto
      · simp only [dictKeys_cons, List.mem_cons, ih]
        tauto

theorem pyGetR_dictSet_self (d : Record) (k : String) (v : PyVal) :
    pyGetR (dictSet d k v) k = v := by
  induction d with
  | nil => simp [dictSet, pyGetR, dictGetOpt]
  | cons hd tl ih =>
      obtain ⟨k0, v0⟩ := hd
      simp only [dictSet]
      split
      · simp [pyGetR_cons]
      · rename_i h
        rw [pyGetR_cons]
        simp only [h, if_false]
        exact ih

theorem pyGetR_dictSet_ne (d : Record) (k : String) (v : PyVal) (k' : String) (h : k ≠ k') :
    pyGetR (dictSet d k v) k' = pyGetR d k' := by
  induction d with
  | nil => simp [dictSet, pyGetR, dictGetOpt, h]
  | cons hd tl ih =>
      obtain ⟨k0, v0⟩ := hd
      simp only [dictSet]
      split
      · rename_i h0
        subst h0
        rw [pyGetR_cons, pyGetR_cons]
        simp [h]
      · rw [pyGetR_cons, pyGetR_cons]
        split <;> simp [ih]

theorem nodup_dictKeys_dictSet (d : Record) (k : String) (v : PyVal)
    (h : (dictKeys d).Nodup) : (dictKeys (dictSet d k v)).Nodup := by
  induction d with
  | nil => simp [dictSet, dictKeys]
  | cons hd tl ih =>
      obtain ⟨k0, v0⟩ := hd
      simp only [dictKeys_cons, List.nodup_cons] at h
      simp only [dictSet]
      split
      · rename_i h0
        subst h0
        simp only [dictKeys_cons, List.nodup_cons]
        exact h
      · rename_i h0
        simp only [dictKeys_cons, List.nodup_cons]
        refine ⟨?_, ih h.2⟩
        rw [mem_dictKeys_dictSet]
        rintro (rfl | hm)
        · exact h0 rfl
        · exact h.1 hm

theorem pyGetR_dictUpdate (m : Record) (hm : (dictKeys m).Nodup) (d : Record) (k : String) :
    pyGetR (dictUpdate d m) k = if hasKey m k then pyGetR m k else pyGetR d k := by
  induction m generalizing d with
  | nil => simp [dictUpdate, hasKey, dictGetOpt]
  | cons hd tl ih =>
      obtain ⟨k0, v0⟩ := hd
      simp only [dictKeys_cons, List.nodup_cons] at hm
      have step : dictUpdate d ((k0, v0) :: tl) = dictUpdate (dictSet d k0 v0) tl := rfl
      rw [step, ih hm.2]
      by_cases hk : k0 = k
      · subst hk
        have h1 : hasKey tl k0 = false := by
          rw [Bool.eq_false_iff]
          intro hc
          exact hm.1 ((hasKey_iff_mem tl k0).mp hc)
        have h2 : hasKey ((k0, v0) :: tl) k0 = true := by
          simp [hasKey, dictGetOpt]
        rw [h1, h2]
        simp [pyGetR_cons, pyGetR_dictSet_self]
      · have h2 : hasKey ((k0, v0) :: tl) k = hasKey tl k := by
          simp [hasKey, dictGetOpt, hk]
        rw [h2, pyGetR_cons]
        simp only [hk, if_false]
        split
        · rfl
        · exact pyGetR_dictSet_ne d k0 v0 k hk

/-- Both mileage normalizers can only return `(none, none)` or a value
paired with the unit string `"mi"`. -/
theorem templates_parse_mileage_shape (txt : PyVal) :
    TemplatesUtils.parse_mileage txt = (none, none) ∨
      ∃ v : ℤ, TemplatesUtils.parse_mileage txt = (some v, some "mi") := by
  unfold TemplatesUtils.parse_mileage
  dsimp only
  repeat' split
  all_goals simp

theorem schema_parse_mileage_shape (txt : PyVal) :
    SchemaNormalizer.parse_mileage txt = (none, none) ∨
      ∃ v : ℤ, SchemaNormalizer.parse_mileage txt = (some v, some "mi") := by
  unfold SchemaNormalizer.parse_mileage
  split <;> simp

theorem coreFieldCount_le_one (v : PyVal) : JsonldVehicle.coreFieldCount v ≤ 1 := by
  unfold JsonldVehicle.coreFieldCount
  split <;> omega

theorem corePriceCount_le_one (v : PyVal) : JsonldVehicle.corePriceCount v ≤ 1 := by
  cases v <;> simp only [JsonldVehicle.corePriceCount] <;> (try split) <;> omega

theorem coreCount_le_three (out : Record) : JsonldVehicle.coreCount out ≤ 3 := by
  unfold JsonldVehicle.coreCount
  have h1 := coreFieldCount_le_one (pyGetR out "brand")
  have h2 := coreFieldCount_le_one (pyGetR out "model")
  have h3 := corePriceCount_le_one (pyGetR out "price")
  omega

/-- A JSON-LD Vehicle object as found on a typical detail page. -/
def sampleVehicleObj : PyVal :=
  .vdict [("@type", .vstr "Car"), ("name", .vstr "2018 SampleBrand S-Model"),
    ("brand", .vstr "SampleBrand"), ("model", .vstr "S-Model"),
    ("offers", .vdict [("price", .vstr "12995"), ("priceCurrency", .vstr "GBP")])]

/-- A linked-data payload whose only vehicle object sits inside a
top-level `@graph` container. -/
def graphWrapperObj : PyVal :=
  .vdict [("@graph", .vlist [sampleVehicleObj])]

/-- A microdata record as produced by `extract_microdata`. -/
def sampleMicroRec : Record :=
  [("name", .vstr "Car X"), ("price", .vstr "£5,000")]

/-- Signals of a document whose only feature is the JSON-LD vehicle
object. -/
def sampleDetailDoc : Engine.DocFeatures :=
  ⟨[sampleVehicleObj], false, false, false, false, false, 0, 0, 0, false, false⟩

/-- Signals of a document whose vehicle object is hidden in `@graph`. -/
def graphDoc : Engine.DocFeatures :=
  ⟨[graphWrapperObj], false, false, false, false, false, 0, 0, 0, false, false⟩

/-- Signals of a document with no features at all. -/
def emptyDoc : Engine.DocFeatures :=
  ⟨[], false, false, false, false, false, 0, 0, 0, false, false⟩

/-- Signals of a document where one listing template finds a single link
(score 2) and one pagination template finds a next page (score 2). -/
def tieDoc : Engine.DocFeatures :=
  ⟨[], false, false, false, false, false, 0, 1, 0, false, true⟩

/-! ## Claim C2 — mileage normalizer equations -/

/-- Claim C2 (counterexample): the claim asserts
`normalize("12,000 miles") == (12000, "miles")` and that
`normalize("20,000 km")` is within ±2 of `(12427, "miles")`.  Both cited
implementations return the unit string `"mi"`, never `"miles"`, and on
`"20,000 km"` both return 12427420 (the lone `k` of `km` triggers the
thousands shorthand, multiplying by 1000 before the km→miles conversion),
which is not within ±2 of 12427. -/
theorem C2_counterexample :
    TemplatesUtils.parse_mileage (.vstr "20,000 km") = (some 12427420, some "mi") ∧
    SchemaNormalizer.parse_mileage (.vstr "20,000 km") = (some 12427420, some "mi") ∧
    ¬ ((12427420 : ℤ) - 12427 ≤ 2) ∧
    TemplatesUtils.parse_mileage (.vstr "12,000 miles") ≠ (some 12000, some "miles") := by
  decide

/-- Claim C2 (amended): the normalizers satisfy
`normalize("12,000 miles") == (12000, "mi")`, `normalize("18k") ==
(18000, "mi")`, `normalize("12-15k") == (12000, "mi")` (hyphenated range
takes the lower bound with a right-side-only `k` propagated left), and
`normalize("20k km") == (12427, "mi")` — within ±2 of 12427 — converting
km to miles with factor 0.621371 rounded to nearest; a km value written
with separators instead of the `k` shorthand (e.g. `"20,000 km"`) is
additionally multiplied by 1000; whenever a numeric value is produced the
reported unit is `"mi"`. -/
theorem C2_amended :
    TemplatesUtils.parse_mileage (.vstr "12,000 miles") = (some 12000, some "mi") ∧
    TemplatesUtils.parse_mileage (.vstr "18k") = (some 18000, some "mi") ∧
    TemplatesUtils.parse_mileage (.vstr "12-15k") = (some 12000, some "mi") ∧
    TemplatesUtils.parse_mileage (.vstr "20k km") = (some 12427, some "mi") ∧
    SchemaNormalizer.parse_mileage (.vstr "12,000 miles") = (some 12000, some "mi") ∧
    SchemaNormalizer.parse_mileage (.vstr "18k") = (some 18000, some "mi") ∧
    SchemaNormalizer.parse_mileage (.vstr "12-15k") = (some 12000, some "mi") ∧
    (∀ txt : PyVal, (TemplatesUtils.parse_mileage txt).1 ≠ none →
      (TemplatesUtils.parse_mileage txt).2 = some "mi") ∧
    (∀ txt : PyVal, (SchemaNormalizer.parse_mileage txt).1 ≠ none →
      (SchemaNormalizer.parse_mileage txt).2 = some "mi") := by
  refine ⟨?_, ?_, ?_, ?_, ?_, ?_, ?_, ?_, ?_⟩ <;> try decide
  · intro txt h
    rcases templates_parse_mileage_shape txt with hc | ⟨v, hc⟩
    · rw [hc] at h; simp at h
    · rw [hc]
  · intro txt h
    rcases schema_parse_mileage_shape txt with hc | ⟨v, hc⟩
    · rw [hc] at h; simp at h
    · rw [hc]

/-- Claim C2 (witness for the amended theorem): instantiating the
unit-invariant at `"18k"`. -/
theorem C2_witness :
    (TemplatesUtils.parse_mileage (.vstr "18k")).2 = some "mi" :=
  C2_amended.2.2.2.2.2.2.2.1 (.vstr "18k") (by decide)

/-! ## Claim C6 — year normalizer -/

/-- Claim C6 (counterexample): the claim says the normalizer returns the
first 4-digit token lying in `[1900, currentYear+1]`.  The string
`"2045 car from 2012"` contains the in-range word-bounded token `2012`
(which the normalizers return when given alone), yet both
implementations return null on it: the regex finds `2045` first, the
range check fails, and neither falls through to a later 4-digit token. -/
theorem C6_counterexample :
    TemplatesUtils.parse_year (.vstr "2012") = some 2012 ∧
    SchemaNormalizer.parse_year (.vstr "2012") = some 2012 ∧
    (1900 ≤ (2012 : ℤ) ∧ (2012 : ℤ) ≤ SchemaNormalizer.CURRENT_YEAR + 1) ∧
    containsSub "2045 car from 2012".data "2012".data = true ∧
    TemplatesUtils.parse_year (.vstr "2045 car from 2012") = none ∧
    SchemaNormalizer.parse_year (.vstr "2045 car from 2012") = none := by
  decide

/-- Claim C6 (amended): both normalizers take the *first* `19xx`/`20xx`
match and do not scan further tokens when its range check fails;
`templates/utils.parse_year` checks the fixed range 1900..2030 (not
`currentYear+1`) and falls back to a word-bounded 2-digit token (≤30 →
2000+v, else 1900+v) only when the 4-digit check fails;
`SchemaNormalizer.normalize_year` checks 1900..`currentYear+1` after
either path and returns null without fallback on an out-of-range 4-digit
match.  The spec examples hold for both: `normalize("18") == 2018`,
`normalize("99") == 1999`, `normalize("Year: 2018") == 2018`. -/
theorem C6_amended :
    TemplatesUtils.parse_year (.vstr "18") = some 2018 ∧
    TemplatesUtils.parse_year (.vstr "99") = some 1999 ∧
    TemplatesUtils.parse_year (.vstr "Year: 2018") = some 2018 ∧
    SchemaNormalizer.parse_year (.vstr "18") = some 2018 ∧
    SchemaNormalizer.parse_year (.vstr "99") = some 1999 ∧
    SchemaNormalizer.parse_year (.vstr "Year: 2018") = some 2018 ∧
    TemplatesUtils.parse_year (.vstr "2029") = some 2029 ∧
    SchemaNormalizer.parse_year (.vstr "2029") = none ∧
    SchemaNormalizer.CURRENT_YEAR + 1 < (2029 : ℤ) ∧ (2029 : ℤ) ≤ 2030 := by
  decide

/-! ## Claim C7 — price normalizer -/

/-- Claim C7 (counterexample): the claim describes a normalizer that
strips currency symbols *and words* before parsing the remainder, citing
both implementations.  `SchemaNormalizer.parse_price` strips only
symbols, separators and hyphens, so on `"GBP 995"` the currency word
survives into the amount parse and the amount is null — while the
`templates/utils.py` implementation returns 995 on the same input, so the
two cited implementations do not even agree. -/
theorem C7_counterexample :
    SchemaNormalizer.parse_price (.vstr "GBP 995") = (none, some "GBP") ∧
    TemplatesUtils.parse_price (.vstr "GBP 995") = (some 995, some "GBP") := by
  decide

/-- Claim C7 (amended): both implementations detect the currency from a
3-letter code or a leading symbol (£→GBP, $→USD, €→EUR) and satisfy
`normalize("£995") == (995, "GBP")` and `normalize("$4,995") ==
(4995, "USD")`; unparseable text yields a null amount with a possibly
non-null currency.  Only `templates/utils.parse_price` strips currency
*words*; `SchemaNormalizer.parse_price` returns a null amount when a
currency word remains in the text. -/
theorem C7_amended :
    TemplatesUtils.parse_price (.vstr "£995") = (some 995, some "GBP") ∧
    TemplatesUtils.parse_price (.vstr "$4,995") = (some 4995, some "USD") ∧
    SchemaNormalizer.parse_price (.vstr "£995") = (some 995, some "GBP") ∧
    SchemaNormalizer.parse_price (.vstr "$4,995") = (some 4995, some "USD") ∧
    TemplatesUtils.parse_price (.vstr "only words") = (none, none) ∧
    SchemaNormalizer.parse_price (.vstr "GBP 995") = (none, some "GBP") := by
  decide

/-! ## Claim C10 — agreement of the two normalizer modules -/

/-- Claim C10 (counterexample): the two `parse_mileage` implementations
are not extensionally equal: on `"12000 miles, black"` the templates
version finds the `k` of `"black"` anywhere in the string and multiplies
by 1000, while the schema version only honours a `k` adjacent to the
number; the results differ by a factor of 1000. -/
theorem C10_counterexample :
    TemplatesUtils.parse_mileage (.vstr "12000 miles, black") = (some 12000000, some "mi") ∧
    SchemaNormalizer.parse_mileage (.vstr "12000 miles, black") = (some 12000, some "mi") ∧
    (12000000 : ℤ) ≠ 12000 := by
  decide

/-- Claim C10 (amended): the two modules agree on the spec's example
inputs (with the templates amount a float and the schema amount an int),
but are not interchangeable in general: they differ on mileage strings
with a stray `k` (see the counterexample), on prices whose currency word
touches the amount, on year tokens embedded in words (the schema regex
has no word boundaries) and on the year upper bound (2030 versus
`currentYear+1`). -/
theorem C10_amended :
    (TemplatesUtils.parse_price (.vstr "£995")).1 = some ((995 : ℤ) : ℚ) ∧
    (SchemaNormalizer.parse_price (.vstr "£995")).1 = some (995 : ℤ) ∧
    (TemplatesUtils.parse_price (.vstr "£995")).2 = (SchemaNormalizer.parse_price (.vstr "£995")).2 ∧
    (TemplatesUtils.parse_price (.vstr "$4,995")).1 = some ((4995 : ℤ) : ℚ) ∧
    (SchemaNormalizer.parse_price (.vstr "$4,995")).1 = some (4995 : ℤ) ∧
    (TemplatesUtils.parse_price (.vstr "$4,995")).2 = (SchemaNormalizer.parse_price (.vstr "$4,995")).2 ∧
    TemplatesUtils.parse_mileage (.vstr "12,000 miles")
      = SchemaNormalizer.parse_mileage (.vstr "12,000 miles") ∧
    TemplatesUtils.parse_mileage (.vstr "18k") = SchemaNormalizer.parse_mileage (.vstr "18k") ∧
    TemplatesUtils.parse_mileage (.vstr "12-15k")
      = SchemaNormalizer.parse_mileage (.vstr "12-15k") ∧
    TemplatesUtils.parse_year (.vstr "18") = SchemaNormalizer.parse_year (.vstr "18") ∧
    TemplatesUtils.parse_year (.vstr "99") = SchemaNormalizer.parse_year (.vstr "99") ∧
    TemplatesUtils.parse_year (.vstr "Year: 2018")
      = SchemaNormalizer.parse_year (.vstr "Year: 2018") ∧
    TemplatesUtils.parse_price (.vstr "995 GBP") ≠
      ((SchemaNormalizer.parse_price (.vstr "995 GBP")).1.map (fun n => (n : ℚ)),
        (SchemaNormalizer.parse_price (.vstr "995 GBP")).2) ∧
    TemplatesUtils.parse_year (.vstr "X1999") = none ∧
    SchemaNormalizer.parse_year (.vstr "X1999") = some 1999 ∧
    TemplatesUtils.parse_year (.vstr "30") = some 2030 ∧
    SchemaNormalizer.parse_year (.vstr "30") = none := by
  decide

/-! ## Claim C4 — exact vehicle-type matching -/

/-- Claim C4 (counterexample): the claim states that *everywhere* the
vehicle-type test is applied the whitelist is
{vehicle, car, automobile, vehiclemodel}, so an object typed
`"VehicleModel"` passes.  The detector's `_is_jsonld_vehicle` accepts it,
but the Structured-Data Vehicle strategy's own `_is_vehicle`
(`templates/jsonld_vehicle.py`) checks only
{vehicle, car, automobile} and rejects the same object. -/
theorem C4_counterexample :
    Engine._is_jsonld_vehicle (.vdict [("@type", .vstr "VehicleModel")]) = true ∧
    JsonldVehicle._is_vehicle (.vdict [("@type", .vstr "VehicleModel")]) = false := by
  decide

/-- Claim C4 (amended): both tests split the type value into names,
normalize each to the lower-cased last segment after `/` and `#`, and
test exact membership — the detector against
{vehicle, car, automobile, vehiclemodel}, the strategy against
{vehicle, car, automobile} only.  Exact names and IRises ending in them
pass (both tests for the three common names, detector only for
VehicleModel); longer words merely containing "vehicle", and stringified
arrays, pass neither. -/
theorem C4_amended :
    Engine._is_jsonld_vehicle (.vdict [("@type", .vstr "Vehicle")]) = true ∧
    JsonldVehicle._is_vehicle (.vdict [("@type", .vstr "Vehicle")]) = true ∧
    Engine._is_jsonld_vehicle (.vdict [("@type", .vstr "Car")]) = true ∧
    JsonldVehicle._is_vehicle (.vdict [("@type", .vstr "Car")]) = true ∧
    Engine._is_jsonld_vehicle (.vdict [("@type", .vstr "https://schema.org/Automobile")]) = true ∧
    JsonldVehicle._is_vehicle (.vdict [("@type", .vstr "https://schema.org/Automobile")]) = true ∧
    Engine._is_jsonld_vehicle (.vdict [("@type", .vstr "https://schema.org/VehicleModel")]) = true ∧
    JsonldVehicle._is_vehicle (.vdict [("@type", .vstr "https://schema.org/VehicleModel")]) = false ∧
    Engine._is_jsonld_vehicle (.vdict [("@type", .vlist [.vstr "Thing", .vstr "Car"])]) = true ∧
    JsonldVehicle._is_vehicle (.vdict [("@type", .vlist [.vstr "Thing", .vstr "Car"])]) = true ∧
    Engine._is_jsonld_vehicle (.vdict [("@type", .vstr "Vehicles")]) = false ∧
    JsonldVehicle._is_vehicle (.vdict [("@type", .vstr "Vehicles")]) = false ∧
    Engine._is_jsonld_vehicle (.vdict [("@type", .vstr "MotorVehicleDealer")]) = false ∧
    JsonldVehicle._is_vehicle (.vdict [("@type", .vstr "MotorVehicleDealer")]) = false ∧
    Engine._is_jsonld_vehicle (.vdict [("@type", .vstr "like a Vehicle and a Car")]) = false ∧
    JsonldVehicle._is_vehicle (.vdict [("@type", .vstr "like a Vehicle and a Car")]) = false ∧
    Engine._is_jsonld_vehicle (.vdict [("name", .vstr "Vehicle")]) = false ∧
    JsonldVehicle._is_vehicle (.vdict [("name", .vstr "Vehicle")]) = false := by
  decide

/-! ## Claim C5 — confidence of the Structured-Data Vehicle strategy -/

/-- Claim C5 (counterexample): the claim asserts that every record the
strategy *and its fallbacks* produce has confidence
`(populated core fields)/3` rounded to two decimals, hence one of
0, 0.33, 0.67, 1.0.  The microdata fallback of
`DetailJSONLDVehicle.parse_car_page` sets the constant 0.5, which no core
count rounds to. -/
theorem C5_counterexample :
    asQ? (pyGetR (DetailJsonldVehicle.parse_car_page [] [sampleMicroRec] []) "confidence")
      = some (1 / 2) ∧
    (∀ n : ℕ, n ≤ 3 → pyRound2 ((n : ℚ) / 3) ≠ 1 / 2) := by
  constructor
  · decide
  · intro n hn
    interval_cases n <;> decide

/-- Claim C5 (amended): on the JSON-LD path the confidence equals
`round(core/3, 2)` where `core` counts the populated fields among
brand, model and a non-negative numeric price, hence lies in
{0, 0.33, 0.67, 1.0} and is monotonic in the core count; the microdata
fallback instead sets the constant confidence 0.5 and the meta fallback
the constant 0.3. -/
theorem C5_amended :
    (∀ node : PyVal,
      pyGetR (JsonldVehicle.build_vehicle_record node) "confidence"
        = .vfloat (pyRound2 ((JsonldVehicle.coreCount (JsonldVehicle.vehicleRecordBase node) : ℚ) / 3)) ∧
      JsonldVehicle.coreCount (JsonldVehicle.vehicleRecordBase node) ≤ 3) ∧
    (∀ n : ℕ, n ≤ 3 →
      pyRound2 ((n : ℚ) / 3) = 0 ∨ pyRound2 ((n : ℚ) / 3) = 33 / 100 ∨
        pyRound2 ((n : ℚ) / 3) = 67 / 100 ∨ pyRound2 ((n : ℚ) / 3) = 1) ∧
    (∀ a b : ℕ, a ≤ b → b ≤ 3 → pyRound2 ((a : ℚ) / 3) ≤ pyRound2 ((b : ℚ) / 3)) ∧
    (∀ (objs : List PyVal) (microList : List Record) (meta : Record) (micro : Record),
      truthy (pyGetR (JsonldVehicle.parse_car_page objs) "name") = false →
      truthy (pyGetR (JsonldVehicle.parse_car_page objs) "brand") = false →
      truthy (pyGetR (JsonldVehicle.parse_car_page objs) "price") = false →
      microList.find? (fun m => truthy (pyGetR m "price") || truthy (pyGetR m "name"))
        = some micro →
      (dictKeys micro).Nodup →
      pyGetR (DetailJsonldVehicle.parse_car_page objs microList meta) "confidence"
        = .vfloat (1 / 2)) ∧
    (∀ (objs : List PyVal) (microList : List Record) (meta : Record),
      truthy (pyGetR (JsonldVehicle.parse_car_page objs) "name") = false →
      truthy (pyGetR (JsonldVehicle.parse_car_page objs) "brand") = false →
      truthy (pyGetR (JsonldVehicle.parse_car_page objs) "price") = false →
      microList.find? (fun m => truthy (pyGetR m "price") || truthy (pyGetR m "name")) = none →
      meta.isEmpty = false →
      (truthy (pyGetR meta "price") || truthy (pyGetR meta "title")) = true →
      (dictKeys meta).Nodup →
      pyGetR (DetailJsonldVehicle.parse_car_page objs microList meta) "confidence"
        = .vfloat (3 / 10)) := by
  refine ⟨?_, ?_, ?_, ?_, ?_⟩
  · intro node
    constructor
    · unfold JsonldVehicle.build_vehicle_record
      exact pyGetR_dictSet_self _ _ _
    · exact coreCount_le_three _
  · intro n hn
    interval_cases n <;> decide
  · intro a b hab hb3
    have ha3 : a ≤ 3 := le_trans hab hb3
    interval_cases a <;> interval_cases b <;> decide
  · intro objs microList meta micro h1 h2 h3 hfind hnd
    unfold DetailJsonldVehicle.parse_car_page
    dsimp only
    rw [h1, h2, h3, hfind]
    simp only [Bool.or_false, if_false, Bool.false_eq_true]
    set m2 := dictSet (dictSet micro "_source" (.vstr "microdata-fallback")) "confidence"
      (.vfloat (1 / 2)) with hm2
    have hnd2 : (dictKeys m2).Nodup := by
      rw [hm2]
      exact nodup_dictKeys_dictSet _ _ _ (nodup_dictKeys_dictSet _ _ _ hnd)
    rw [pyGetR_dictUpdate m2 hnd2]
    have hk : hasKey m2 "confidence" = true := by
      rw [hasKey_iff_mem, hm2, mem_dictKeys_dictSet]
      exact Or.inl rfl
    rw [hk]
    simp only [if_true]
    rw [hm2]
    exact pyGetR_dictSet_self _ _ _
  · intro objs microList meta h1 h2 h3 hfind hne hcond hnd
    unfold DetailJsonldVehicle.parse_car_page
    dsimp only
    rw [h1, h2, h3, hfind, hne, hcond]
    simp only [Bool.or_false, if_false, Bool.not_false, Bool.true_and, if_true,
      Bool.false_eq_true]
    set m2 := dictSet (dictSet meta "_source" (.vstr "meta-fallback")) "confidence"
      (.vfloat (3 / 10)) with hm2
    have hnd2 : (dictKeys m2).Nodup := by
      rw [hm2]
      exact nodup_dictKeys_dictSet _ _ _ (nodup_dictKeys_dictSet _ _ _ hnd)
    rw [pyGetR_dictUpdate m2 hnd2]
    have hk : hasKey m2 "confidence" = true := by
      rw [hasKey_iff_mem, hm2, mem_dictKeys_dictSet]
      exact Or.inl rfl
    rw [hk]
    simp only [if_true]
    rw [hm2]
    exact pyGetR_dictSet_self _ _ _

/-- Claim C5 (witness for the amended theorem): the microdata-fallback
clause instantiated on a concrete document with no JSON-LD and one
microdata record. -/
theorem C5_witness :
    pyGetR (DetailJsonldVehicle.parse_car_page [] [sampleMicroRec] []) "confidence"
      = .vfloat (1 / 2) :=
  C5_amended.2.2.2.1 [] [sampleMicroRec] [] sampleMicroRec
    (by decide) (by decide) (by decide) (by rfl) (by decide)

/-! ## Claim C8 — `@graph` flattening -/

/-- Claim C8 (counterexample): the claim says structured-data extraction
flattens top-level `@graph` containers, so a vehicle present only inside
`@graph` makes `has_structured_vehicle_object` true.  In the code
`extract_jsonld_objects` keeps the wrapper dict whole; the detector
signal is false on such a document (here the whole detection yields no
candidates at all), even though the vehicle object itself passes the type
test and the JSON-LD strategy can find it by walking `@graph` itself. -/
theorem C8_counterexample :
    Engine._is_jsonld_vehicle sampleVehicleObj = true ∧
    (TemplatesUtils.extract_jsonld_objects [graphWrapperObj]).any Engine._is_jsonld_vehicle
      = false ∧
    Engine.detect graphDoc = none ∧
    asStr? (pyGetR (JsonldVehicle.parse_car_page [graphWrapperObj]) "brand")
      = some "SampleBrand" := by
  decide

/-- Claim C8 (amended): `extract_jsonld_objects` flattens only top-level
JSON arrays; a dict with a `@graph` list is kept as a single object, so
for any wrapper object that is not itself vehicle-typed the extracted set
contains no individual vehicle member and the detector signal is false —
while `JSONLDVehicleTemplate.parse_car_page` iterates the `@graph`
members itself and still finds the first vehicle node. -/
theorem C8_amended :
    ∀ (g : List PyVal) (f : Record),
      Engine._is_jsonld_vehicle (.vdict f) = false →
      dictGetOpt f "@graph" = some (.vlist g) →
      TemplatesUtils.extract_jsonld_objects [.vdict f] = [.vdict f] ∧
      (TemplatesUtils.extract_jsonld_objects [.vdict f]).any Engine._is_jsonld_vehicle
        = false ∧
      JsonldVehicle.findVehicleNode [.vdict f]
        = g.find? (fun node => isDictV node && JsonldVehicle._is_vehicle node) := by
  intro g f hveh hgraph
  refine ⟨rfl, ?_, ?_⟩
  · simp [TemplatesUtils.extract_jsonld_objects, hveh]
  · have hk : hasKey f "@graph" = true := by simp [hasKey, hgraph]
    have hg2 : pyGetR f "@graph" = .vlist g := by simp [pyGetR, hgraph]
    have hnodes : JsonldVehicle.nodesOf (.vdict f) = g := by
      unfold JsonldVehicle.nodesOf
      dsimp only
      simp [hk, hg2]
    unfold JsonldVehicle.findVehicleNode
    simp only [List.findSome?_cons, List.findSome?_nil, hnodes]
    cases g.find? (fun node => isDictV node && JsonldVehicle._is_vehicle node) <;> rfl

/-- Claim C8 (witness for the amended theorem): instantiated on the
concrete `@graph` wrapper; the strategy finds the vehicle node while the
detector signal stays false. -/
theorem C8_witness :
    (TemplatesUtils.extract_jsonld_objects [graphWrapperObj]).any Engine._is_jsonld_vehicle
      = false ∧
    JsonldVehicle.findVehicleNode [graphWrapperObj] = some sampleVehicleObj := by
  have h := C8_amended [sampleVehicleObj] [("@graph", .vlist [sampleVehicleObj])]
    (by decide) (by rfl)
  refine ⟨h.2.1, ?_⟩
  rw [show graphWrapperObj = .vdict [("@graph", .vlist [sampleVehicleObj])] from rfl, h.2.2]
  rfl

/-! ## Claim C9 — "none" outcome when there are no candidates -/

/-- Claim C9: when no strategy becomes a candidate, detection returns no
template and `scrape_file` still terminates normally with the
`no_template` marker and both the detail record (`car`) and the site-info
record (`dealer`) null.  The embedded functions are total, so normal
termination is inherent; the theorem establishes the null outputs. -/
theorem C9_none_outcome :
    ∀ (d : Engine.DocFeatures) (parsed : Engine.TName → Option Record),
      Engine.candidatesOf d = [] →
      Engine.detect d = none ∧
      (Engine.scrape_outcome d parsed).template = "no_template" ∧
      (Engine.scrape_outcome d parsed).car = none ∧
      (Engine.scrape_outcome d parsed).dealer = none := by
  intro d parsed h
  have hd : Engine.detect d = none := by
    unfold Engine.detect Engine.select
    rw [h]
  refine ⟨hd, ?_, ?_, ?_⟩ <;> simp [Engine.scrape_outcome, hd]

/-- Claim C9 (witness): the all-empty document produces no candidates and
the null outcome. -/
theorem C9_witness :
    Engine.detect emptyDoc = none ∧
    (Engine.scrape_outcome emptyDoc (fun _ => none)).car = none ∧
    (Engine.scrape_outcome emptyDoc (fun _ => none)).dealer = none :=
  have h := C9_none_outcome emptyDoc (fun _ => none) (by decide)
  ⟨h.1, h.2.2.1, h.2.2.2⟩

/-! ## Selection lemmas for Claim C3 -/

theorem foldMaxScore_ub (l : List Engine.Cand) :
    ∀ c ∈ l, c.2 ≤ Engine.foldMaxScore l := by
  induction l with
  | nil => simp
  | cons a t ih =>
      intro c hc
      rcases List.mem_cons.mp hc with rfl | hc
      · exact le_max_left _ _
      · exact le_trans (ih c hc) (le_max_right _ _)

theorem foldMaxScore_attained (l : List Engine.Cand) (hne : l ≠ [])
    (hpos : ∀ c ∈ l, 0 < c.2) :
    ∃ c ∈ l, c.2 = Engine.foldMaxScore l := by
  induction l with
  | nil => exact absurd rfl hne
  | cons a t ih =>
      by_cases hte : t = []
      · subst hte
        refine ⟨a, List.mem_cons_self a [], ?_⟩
        have ha := hpos a (List.mem_cons_self a [])
        simp only [Engine.foldMaxScore, List.foldr]
        rw [max_eq_left (le_of_lt ha)]
      · obtain ⟨b, hb, hbmax⟩ := ih hte (fun c hc => hpos c (List.mem_cons_of_mem a hc))
        by_cases hab : Engine.foldMaxScore t ≤ a.2
        · refine ⟨a, List.mem_cons_self a t, ?_⟩
          simp only [Engine.foldMaxScore, List.foldr] at *
          rw [max_eq_left hab]
        · refine ⟨b, List.mem_cons_of_mem a hb, ?_⟩
          simp only [Engine.foldMaxScore, List.foldr] at *
          rw [max_eq_right (le_of_lt (lt_of_not_le hab))]
          exact hbmax

theorem foldMaxPrio_ub (l : List Engine.Cand) :
    ∀ c ∈ l, Engine.TYPE_PRIORITY (Engine.categoryOf c.1) ≤ Engine.foldMaxPrio l := by
  induction l with
  | nil => simp
  | cons a t ih =>
      intro c hc
      rcases List.mem_cons.mp hc with rfl | hc
      · exact le_max_left _ _
      · exact le_trans (ih c hc) (le_max_right _ _)

theorem foldMaxPrio_attained (l : List Engine.Cand) (hne : l ≠ []) :
    ∃ c ∈ l, Engine.TYPE_PRIORITY (Engine.categoryOf c.1) = Engine.foldMaxPrio l := by
  induction l with
  | nil => exact absurd rfl hne
  | cons a t ih =>
      by_cases hte : t = []
      · subst hte
        refine ⟨a, List.mem_cons_self a [], ?_⟩
        simp [Engine.foldMaxPrio]
      · obtain ⟨b, hb, hbmax⟩ := ih hte
        by_cases hab : Engine.foldMaxPrio t ≤ Engine.TYPE_PRIORITY (Engine.categoryOf a.1)
        · refine ⟨a, List.mem_cons_self a t, ?_⟩
          simp only [Engine.foldMaxPrio, List.foldr] at *
          rw [max_eq_left hab]
        · refine ⟨b, List.mem_cons_of_mem a hb, ?_⟩
          simp only [Engine.foldMaxPrio, List.foldr] at *
          rw [max_eq_right (le_of_lt (lt_of_not_le hab))]
          exact hbmax

/-- The registry loop returns the first registered class present among the
tied candidates: any other present class sits at a later index. -/
theorem find?_min_indexOf {α : Type} [DecidableEq α] :
    ∀ (l : List α) (p : α → Bool) (n : α), l.find? p = some n →
      p n = true ∧ ∀ m, p m = true → l.indexOf n ≤ l.indexOf m := by
  intro l
  induction l with
  | nil => intro p n h; simp [List.find?] at h
  | cons a t ih =>
      intro p n h
      rw [List.find?] at h
      by_cases hpa : p a = true
      · rw [hpa] at h
        simp only [Option.some.injEq] at h
        subst h
        exact ⟨hpa, fun m _ => by simp [List.indexOf_cons_self]⟩
      · rw [Bool.not_eq_true] at hpa
        rw [hpa] at h
        obtain ⟨hpn, hmin⟩ := ih p n h
        refine ⟨hpn, fun m hm => ?_⟩
        have hna : n ≠ a := by
          rintro rfl
          rw [hpn] at hpa
          exact absurd hpa (by simp)
        have hma : m ≠ a := by
          rintro rfl
          rw [hm] at hpa
          exact absurd hpa (by simp)
        rw [List.indexOf_cons_ne t (Ne.symm hna), List.indexOf_cons_ne t (Ne.symm hma)]
        exact Nat.succ_le_succ (hmin m hm)

theorem mem_registry (t : Engine.TName) : t ∈ Engine.ALL_TEMPLATES := by
  cases t <;> simp [Engine.ALL_TEMPLATES]

theorem normalizeDetailScore_pos (s : ℕ) (h : 0 < s) :
    0 < Engine.normalizeDetailScore s := by
  unfold Engine.normalizeDetailScore
  have h1 : (1 : ℚ) ≤ ((min s 6 : ℕ) : ℚ) := by
    have : 1 ≤ min s 6 := by omega
    exact_mod_cast this
  linarith

theorem normalizeListingScore_pos (s : ℕ) (h : 0 < s) :
    0 < Engine.normalizeListingScore s := by
  unfold Engine.normalizeListingScore
  have h1 : (1 : ℚ) ≤ ((min s 5 : ℕ) : ℚ) := by
    have : 1 ≤ min s 5 := by omega
    exact_mod_cast this
  linarith

theorem normalizeDetailScore_ne_two (s : ℕ) :
    Engine.normalizeDetailScore s ≠ 2 := by
  unfold Engine.normalizeDetailScore
  have hm6 : min s 6 ≤ 6 := by omega
  set m := min s 6 with hm
  clear_value m
  interval_cases m <;> norm_num

/-- Scores of the candidate list, by category: detail candidates carry a
normalized positive heuristic score, listing candidates a normalized
positive count score, pagination candidates the constant 2 and the dealer
candidate the constant 3; every candidate score is positive and every
candidate category matches its template. -/
theorem candidatesOf_score (d : Engine.DocFeatures) :
    ∀ c ∈ Engine.candidatesOf d,
      0 < c.2 ∧
      (Engine.categoryOf c.1 = .detail →
        ∃ s : ℕ, 0 < s ∧ c.2 = Engine.normalizeDetailScore s) ∧
      (Engine.categoryOf c.1 = .pagination → c.2 = 2) ∧
      (Engine.categoryOf c.1 = .dealer → c.2 = 3) := by
  intro c hc
  unfold Engine.candidatesOf at hc
  rcases List.mem_append.mp hc with hc1 | hc4
  rcases List.mem_append.mp hc1 with hc2 | hc3
  rcases List.mem_append.mp hc2 with hcd | hcl
  · -- detail candidates
    unfold Engine.detailCands at hcd
    obtain ⟨p, hp, hpc⟩ := List.mem_filterMap.mp hcd
    split at hpc
    · rename_i hpos
      simp only [Option.some.injEq] at hpc
      subst hpc
      unfold Engine.detailBaseScores at hp
      dsimp only at hp
      simp only [List.mem_cons, List.not_mem_nil, or_false] at hp
      refine ⟨normalizeDetailScore_pos p.2 hpos, fun _ => ⟨p.2, hpos, rfl⟩, ?_, ?_⟩
      · intro hcat
        rcases hp with rfl | rfl | rfl | rfl <;> simp [Engine.categoryOf] at hcat
      · intro hcat
        rcases hp with rfl | rfl | rfl | rfl <;> simp [Engine.categoryOf] at hcat
    · simp at hpc
  · -- listing candidates
    unfold Engine.listingCands at hcl
    obtain ⟨p, hp, hpc⟩ := List.mem_filterMap.mp hcl
    split at hpc
    · rename_i hpos
      simp only [Option.some.injEq] at hpc
      subst hpc
      simp only [List.mem_cons, List.not_mem_nil, or_false] at hp
      refine ⟨normalizeListingScore_pos p.2 hpos, ?_, ?_, ?_⟩
      · intro hcat
        rcases hp with rfl | rfl | rfl <;> simp [Engine.categoryOf] at hcat
      · intro hcat
        rcases hp with rfl | rfl | rfl <;> simp [Engine.categoryOf] at hcat
      · intro hcat
        rcases hp with rfl | rfl | rfl <;> simp [Engine.categoryOf] at hcat
    · simp at hpc
  · -- pagination candidates
    unfold Engine.pagCands at hc3
    obtain ⟨p, hp, hpc⟩ := List.mem_filterMap.mp hc3
    split at hpc
    · simp only [Option.some.injEq] at hpc
      subst hpc
      simp only [List.mem_cons, List.not_mem_nil, or_false] at hp
      refine ⟨by norm_num, ?_, fun _ => rfl, ?_⟩
      · intro hcat
        rcases hp with rfl | rfl <;> simp [Engine.categoryOf] at hcat
      · intro hcat
        rcases hp with rfl | rfl <;> simp [Engine.categoryOf] at hcat
    · simp at hpc
  · -- dealer candidate
    unfold Engine.dealerCands at hc4
    split at hc4
    · rcases List.mem_singleton.mp hc4 with rfl
      exact ⟨by norm_num, by intro h; simp [Engine.categoryOf] at h,
        by intro h; simp [Engine.categoryOf] at h, fun _ => rfl⟩
    · simp at hc4

theorem candidatesOf_pos (d : Engine.DocFeatures) :
    ∀ c ∈ Engine.candidatesOf d, 0 < c.2 :=
  fun c hc => (candidatesOf_score d c hc).1

/-- Characterization of the selection logic: a selected template comes
from a candidate of maximum score; among the maximum-score candidates its
category priority is maximal; and among those it is first in registration
order. -/
theorem select_spec (cands : List Engine.Cand)
    (hpos : ∀ c ∈ cands, 0 < c.2) (t : Engine.TName)
    (ht : Engine.select cands = some t) :
    ∃ c ∈ cands, c.1 = t ∧
      (∀ c2 ∈ cands, c2.2 ≤ c.2) ∧
      (∀ c2 ∈ cands, c2.2 = c.2 →
        Engine.TYPE_PRIORITY (Engine.categoryOf c2.1)
          ≤ Engine.TYPE_PRIORITY (Engine.categoryOf c.1)) ∧
      (∀ c2 ∈ cands, c2.2 = c.2 →
        Engine.TYPE_PRIORITY (Engine.categoryOf c2.1)
          = Engine.TYPE_PRIORITY (Engine.categoryOf c.1) →
        Engine.ALL_TEMPLATES.indexOf c.1 ≤ Engine.ALL_TEMPLATES.indexOf c2.1) := by
  cases cands with
  | nil => simp [Engine.select] at ht
  | cons c0 cs =>
    unfold Engine.select at ht
    dsimp only at ht
    split at ht
    · -- unique maximum-score candidate
      rename_i hlen
      obtain ⟨a, ha⟩ := List.length_eq_one.mp hlen
      rw [ha] at ht
      simp only [List.head?_cons, Option.map_some', Option.some.injEq] at ht
      have hamem := ha ▸ List.mem_singleton_self a
      obtain ⟨haL, hadec⟩ := List.mem_filter.mp hamem
      have haM : a.2 = Engine.foldMaxScore (c0 :: cs) := of_decide_eq_true hadec
      refine ⟨a, haL, ht, ?_, ?_, ?_⟩
      · intro c2 hc2
        rw [haM]
        exact foldMaxScore_ub _ c2 hc2
      · intro c2 hc2 hsc
        have hc2b : c2 ∈ (c0 :: cs).filter
            (fun c => decide (c.2 = Engine.foldMaxScore (c0 :: cs))) :=
          List.mem_filter.mpr ⟨hc2, decide_eq_true (hsc.trans haM)⟩
        rw [ha, List.mem_singleton] at hc2b
        rw [hc2b]
      · intro c2 hc2 hsc _
        have hc2b : c2 ∈ (c0 :: cs).filter
            (fun c => decide (c.2 = Engine.foldMaxScore (c0 :: cs))) :=
          List.mem_filter.mpr ⟨hc2, decide_eq_true (hsc.trans haM)⟩
        rw [ha, List.mem_singleton] at hc2b
        rw [hc2b]
    · split at ht
      · -- unique maximum-priority candidate among the tied maximum
        rename_i hlen2
        obtain ⟨a, ha⟩ := List.length_eq_one.mp hlen2
        rw [ha] at ht
        simp only [List.head?_cons, Option.map_some', Option.some.injEq] at ht
        have hamem := ha ▸ List.mem_singleton_self a
        obtain ⟨hab, hapdec⟩ := List.mem_filter.mp hamem
        have haP : Engine.TYPE_PRIORITY (Engine.categoryOf a.1)
            = Engine.foldMaxPrio ((c0 :: cs).filter
                (fun c => decide (c.2 = Engine.foldMaxScore (c0 :: cs)))) :=
          of_decide_eq_true hapdec
        obtain ⟨haL, hadec⟩ := List.mem_filter.mp hab
        have haM : a.2 = Engine.foldMaxScore (c0 :: cs) := of_decide_eq_true hadec
        refine ⟨a, haL, ht, ?_, ?_, ?_⟩
        · intro c2 hc2
          rw [haM]
          exact foldMaxScore_ub _ c2 hc2
        · intro c2 hc2 hsc
          have hc2b : c2 ∈ (c0 :: cs).filter
              (fun c => decide (c.2 = Engine.foldMaxScore (c0 :: cs))) :=
            List.mem_filter.mpr ⟨hc2, decide_eq_true (hsc.trans haM)⟩
          rw [haP]
          exact foldMaxPrio_ub _ c2 hc2b
        · intro c2 hc2 hsc hpr
          have hc2b : c2 ∈ (c0 :: cs).filter
              (fun c => decide (c.2 = Engine.foldMaxScore (c0 :: cs))) :=
            List.mem_filter.mpr ⟨hc2, decide_eq_true (hsc.trans haM)⟩
          have hc2p : c2 ∈ ((c0 :: cs).filter
              (fun c => decide (c.2 = Engine.foldMaxScore (c0 :: cs)))).filter
                (fun c => decide (Engine.TYPE_PRIORITY (Engine.categoryOf c.1)
                  = Engine.foldMaxPrio ((c0 :: cs).filter
                      (fun c => decide (c.2 = Engine.foldMaxScore (c0 :: cs)))))) :=
            List.mem_filter.mpr ⟨hc2b, decide_eq_true (hpr.trans haP)⟩
          rw [ha, List.mem_singleton] at hc2p
          rw [hc2p]
      · -- registry-order tie break
        split at ht
        · rename_i n hfind
          simp only [Option.some.injEq] at ht
          subst ht
          obtain ⟨hpredn, hmin⟩ := find?_min_indexOf _ _ _ hfind
          obtain ⟨c, hcp, hceq⟩ := List.any_eq_true.mp hpredn
          have hceq2 : c.1 = n := of_decide_eq_true hceq
          obtain ⟨hcb, hcpdec⟩ := List.mem_filter.mp hcp
          have hcP : Engine.TYPE_PRIORITY (Engine.categoryOf c.1)
              = Engine.foldMaxPrio ((c0 :: cs).filter
                  (fun c => decide (c.2 = Engine.foldMaxScore (c0 :: cs)))) :=
            of_decide_eq_true hcpdec
          obtain ⟨hcL, hcdec⟩ := List.mem_filter.mp hcb
          have hcM : c.2 = Engine.foldMaxScore (c0 :: cs) := of_decide_eq_true hcdec
          refine ⟨c, hcL, hceq2, ?_, ?_, ?_⟩
          · intro c2 hc2
            rw [hcM]
            exact foldMaxScore_ub _ c2 hc2
          · intro c2 hc2 hsc
            have hc2b : c2 ∈ (c0 :: cs).filter
                (fun c => decide (c.2 = Engine.foldMaxScore (c0 :: cs))) :=
              List.mem_filter.mpr ⟨hc2, decide_eq_true (hsc.trans hcM)⟩
            rw [hcP]
            exact foldMaxPrio_ub _ c2 hc2b
          · intro c2 hc2 hsc hpr
            have hc2b : c2 ∈ (c0 :: cs).filter
                (fun c => decide (c.2 = Engine.foldMaxScore (c0 :: cs))) :=
              List.mem_filter.mpr ⟨hc2, decide_eq_true (hsc.trans hcM)⟩
            have hc2p : c2 ∈ ((c0 :: cs).filter
                (fun c => decide (c.2 = Engine.foldMaxScore (c0 :: cs)))).filter
                  (fun c => decide (Engine.TYPE_PRIORITY (Engine.categoryOf c.1)
                    = Engine.foldMaxPrio ((c0 :: cs).filter
                        (fun c => decide (c.2 = Engine.foldMaxScore (c0 :: cs)))))) :=
              List.mem_filter.mpr ⟨hc2b, decide_eq_true (hpr.trans hcP)⟩
            have hany : ((((c0 :: cs).filter
                (fun c => decide (c.2 = Engine.foldMaxScore (c0 :: cs)))).filter
                  (fun c => decide (Engine.TYPE_PRIORITY (Engine.categoryOf c.1)
                    = Engine.foldMaxPrio ((c0 :: cs).filter
                        (fun c => decide (c.2 = Engine.foldMaxScore (c0 :: cs))))))).any
                  (fun c => decide (c.1 = c2.1))) = true :=
              List.any_eq_true.mpr ⟨c2, hc2p, decide_eq_true rfl⟩
            rw [hceq2]
            exact hmin c2.1 hany
        · -- the registry always contains every tied candidate: impossible
          rename_i hfind
          exfalso
          obtain ⟨b0, hb0, hb0M⟩ := foldMaxScore_attained (c0 :: cs) (by simp) hpos
          have hb0b : b0 ∈ (c0 :: cs).filter
              (fun c => decide (c.2 = Engine.foldMaxScore (c0 :: cs))) :=
            List.mem_filter.mpr ⟨hb0, decide_eq_true hb0M⟩
          obtain ⟨b1, hb1, hb1P⟩ := foldMaxPrio_attained
            ((c0 :: cs).filter (fun c => decide (c.2 = Engine.foldMaxScore (c0 :: cs))))
            (List.ne_nil_of_mem hb0b)
          have hb1p : b1 ∈ ((c0 :: cs).filter
              (fun c => decide (c.2 = Engine.foldMaxScore (c0 :: cs)))).filter
                (fun c => decide (Engine.TYPE_PRIORITY (Engine.categoryOf c.1)
                  = Engine.foldMaxPrio ((c0 :: cs).filter
                      (fun c => decide (c.2 = Engine.foldMaxScore (c0 :: cs)))))) :=
            List.mem_filter.mpr ⟨hb1, decide_eq_true hb1P⟩
          have hnone := List.find?_eq_none.mp hfind b1.1 (mem_registry b1.1)
          exact hnone (List.any_eq_true.mpr ⟨b1, hb1p, decide_eq_true rfl⟩)

/-- A non-empty candidate list always selects a winner. -/
theorem select_isSome (cands : List Engine.Cand) (hne : cands ≠ [])
    (hpos : ∀ c ∈ cands, 0 < c.2) :
    ∃ t, Engine.select cands = some t := by
  cases cands with
  | nil => exact absurd rfl hne
  | cons c0 cs =>
    unfold Engine.select
    dsimp only
    split
    · rename_i hlen
      obtain ⟨a, ha⟩ := List.length_eq_one.mp hlen
      rw [ha]
      exact ⟨a.1, rfl⟩
    · split
      · rename_i hlen2
        obtain ⟨a, ha⟩ := List.length_eq_one.mp hlen2
        rw [ha]
        exact ⟨a.1, rfl⟩
      · split
        · rename_i n _
          exact ⟨n, rfl⟩
        · rename_i hfind
          exfalso
          obtain ⟨b0, hb0, hb0M⟩ := foldMaxScore_attained (c0 :: cs) (by simp) hpos
          have hb0b : b0 ∈ (c0 :: cs).filter
              (fun c => decide (c.2 = Engine.foldMaxScore (c0 :: cs))) :=
            List.mem_filter.mpr ⟨hb0, decide_eq_true hb0M⟩
          obtain ⟨b1, hb1, hb1P⟩ := foldMaxPrio_attained
            ((c0 :: cs).filter (fun c => decide (c.2 = Engine.foldMaxScore (c0 :: cs))))
            (List.ne_nil_of_mem hb0b)
          have hb1p : b1 ∈ ((c0 :: cs).filter
              (fun c => decide (c.2 = Engine.foldMaxScore (c0 :: cs)))).filter
                (fun c => decide (Engine.TYPE_PRIORITY (Engine.categoryOf c.1)
                  = Engine.foldMaxPrio ((c0 :: cs).filter
                      (fun c => decide (c.2 = Engine.foldMaxScore (c0 :: cs)))))) :=
            List.mem_filter.mpr ⟨hb1, decide_eq_true hb1P⟩
          have hnone := List.find?_eq_none.mp hfind b1.1 (mem_registry b1.1)
          exact hnone (List.any_eq_true.mpr ⟨b1, hb1p, decide_eq_true rfl⟩)

/-! ## Claim C3 — classification selection and tie-break -/

/-- Claim C3: classification selects a candidate of maximum normalized
score; among maximum-score candidates the winner has maximal category
priority (detail > listing > pagination > dealer per `TYPE_PRIORITY`);
among those it is the first in the authoritative registration order.  In
particular, whenever a listing candidate and a pagination candidate tie
at the maximum score, the selected strategy is a listing strategy. -/
theorem C3_selection :
    ∀ d : Engine.DocFeatures,
      (∀ t, Engine.detect d = some t →
        ∃ c ∈ Engine.candidatesOf d, c.1 = t ∧
          (∀ c2 ∈ Engine.candidatesOf d, c2.2 ≤ c.2) ∧
          (∀ c2 ∈ Engine.candidatesOf d, c2.2 = c.2 →
            Engine.TYPE_PRIORITY (Engine.categoryOf c2.1)
              ≤ Engine.TYPE_PRIORITY (Engine.categoryOf c.1)) ∧
          (∀ c2 ∈ Engine.candidatesOf d, c2.2 = c.2 →
            Engine.TYPE_PRIORITY (Engine.categoryOf c2.1)
              = Engine.TYPE_PRIORITY (Engine.categoryOf c.1) →
            Engine.ALL_TEMPLATES.indexOf c.1 ≤ Engine.ALL_TEMPLATES.indexOf c2.1)) ∧
      ((∃ cL ∈ Engine.candidatesOf d, Engine.categoryOf cL.1 = .listing ∧
          cL.2 = Engine.foldMaxScore (Engine.candidatesOf d)) →
       (∃ cP ∈ Engine.candidatesOf d, Engine.categoryOf cP.1 = .pagination ∧
          cP.2 = Engine.foldMaxScore (Engine.candidatesOf d)) →
       ∃ t, Engine.detect d = some t ∧ Engine.categoryOf t = .listing) := by
  intro d
  constructor
  · intro t ht
    exact select_spec _ (candidatesOf_pos d) t ht
  · rintro ⟨cL, hcLmem, hcLcat, hcLM⟩ ⟨cP, hcPmem, hcPcat, hcPM⟩
    have hP2 : cP.2 = 2 := (candidatesOf_score d cP hcPmem).2.2.1 hcPcat
    have hM2 : Engine.foldMaxScore (Engine.candidatesOf d) = 2 := by rw [← hcPM, hP2]
    have hne : Engine.candidatesOf d ≠ [] := List.ne_nil_of_mem hcLmem
    obtain ⟨t, hdet⟩ := select_isSome _ hne (candidatesOf_pos d)
    obtain ⟨c, hcmem, hct, hub, hprio, _⟩ := select_spec _ (candidatesOf_pos d) t hdet
    have hcM : c.2 = 2 := by
      have h1 : c.2 ≤ 2 := by
        rw [← hM2]
        exact foldMaxScore_ub _ c hcmem
      have h2 : (2 : ℚ) ≤ c.2 := by
        calc (2 : ℚ) = cL.2 := by rw [hcLM, hM2]
        _ ≤ c.2 := hub cL hcLmem
      linarith
    have hLprio := hprio cL hcLmem (by rw [hcLM, hM2, hcM])
    rw [hcLcat] at hLprio
    simp only [Engine.TYPE_PRIORITY] at hLprio
    refine ⟨t, hdet, ?_⟩
    rw [← hct]
    cases hcat : Engine.categoryOf c.1 with
    | detail =>
        obtain ⟨s, _, hss⟩ := (candidatesOf_score d c hcmem).2.1 hcat
        rw [hss] at hcM
        exact absurd hcM (normalizeDetailScore_ne_two s)
    | listing => rfl
    | pagination =>
        rw [hcat] at hLprio
        simp [Engine.TYPE_PRIORITY] at hLprio
    | dealer =>
        rw [hcat] at hLprio
        simp [Engine.TYPE_PRIORITY] at hLprio

/-- Claim C3 (witness): on a document where `listing_card` finds one link
(score 2) and `pagination_path` finds a next page (score 2), the winner
is a listing strategy. -/
theorem C3_witness :
    ∃ t, Engine.detect tieDoc = some t ∧ Engine.categoryOf t = .listing :=
  (C3_selection tieDoc).2
    ⟨(.listing_card, 2), by decide, by decide, by decide⟩
    ⟨(.pagination_path, 2), by decide, by decide, by decide⟩

/-! ## Claim C1 — canonical key invariant -/

theorem keys_priceStep_iff (d : Record) (k : String) :
    k ∈ dictKeys (TemplatesUtils.priceStep d) ↔
      k = "price_value" ∨ k = "price_raw" ∨ k = "currency" ∨ k ∈ dictKeys d := by
  unfold TemplatesUtils.priceStep
  dsimp only
  repeat' split
  all_goals simp only [mem_dictKeys_dictSet]
  all_goals tauto

theorem keys_mileageStep_iff (d : Record) (k : String) :
    k ∈ dictKeys (TemplatesUtils.mileageStep d) ↔
      k = "mileage_value" ∨ k = "mileage_unit" ∨ k ∈ dictKeys d := by
  unfold TemplatesUtils.mileageStep
  dsimp only
  repeat' split
  all_goals simp only [mem_dictKeys_dictSet]
  all_goals tauto

/-- Claim C1 (counterexample): the claim requires every record of a
document classified as detail to carry exactly the canonical keys plus
provenance.  A document whose only signal is a JSON-LD vehicle object is
classified as `detail_jsonld_vehicle`, whose `parse_car_page` result
never passes through `finalize_detail_output`: the record is missing
`price_value`, `mileage_value`, `mileage_unit`, `fuel`, `transmission`
and `raw`, and carries the non-canonical keys `price`, `name` and
`_raw`. -/
theorem C1_counterexample :
    Engine.detect sampleDetailDoc = some .detail_jsonld_vehicle ∧
    dictKeys (DetailJsonldVehicle.parse_car_page
        (TemplatesUtils.extract_jsonld_objects [sampleVehicleObj]) [] [])
      = ["brand", "model", "price", "price_raw", "currency", "name", "description",
         "_raw", "_source", "year", "confidence"] ∧
    "mileage_value" ∉ dictKeys (DetailJsonldVehicle.parse_car_page
        (TemplatesUtils.extract_jsonld_objects [sampleVehicleObj]) [] []) ∧
    "price_value" ∉ dictKeys (DetailJsonldVehicle.parse_car_page
        (TemplatesUtils.extract_jsonld_objects [sampleVehicleObj]) [] []) ∧
    "name" ∈ dictKeys (DetailJsonldVehicle.parse_car_page
        (TemplatesUtils.extract_jsonld_objects [sampleVehicleObj]) [] []) := by
  decide

/-- Claim C1 (amended): only `finalize_detail_output` (used by the
spec-table and hybrid detail strategies) guarantees the canonical key
set: its output contains every canonical key (absent data bound to null
values by the assignments) and preserves every key of its input,
including non-canonical extras; the JSON-LD and inline-blocks detail
strategies return records without this normalization. -/
theorem C1_amended :
    ∀ d : Record,
      (∀ k, k ∈ TemplatesUtils.CANONICAL_KEYS →
        k ∈ dictKeys (TemplatesUtils.finalize_detail_output d)) ∧
      (∀ k, k ∈ dictKeys d → k ∈ dictKeys (TemplatesUtils.finalize_detail_output d)) := by
  intro d
  constructor
  · intro k hk
    simp only [TemplatesUtils.CANONICAL_KEYS, List.mem_cons, List.not_mem_nil,
      or_false] at hk
    unfold TemplatesUtils.finalize_detail_output
    dsimp only
    simp only [mem_dictKeys_dictSet, keys_mileageStep_iff, keys_priceStep_iff]
    tauto
  · intro k hk
    unfold TemplatesUtils.finalize_detail_output
    dsimp only
    simp only [mem_dictKeys_dictSet, keys_mileageStep_iff, keys_priceStep_iff]
    tauto

/-- Claim C1 (witness for the amended theorem): concrete instantiations —
the empty record gains every canonical key, and a non-canonical `specs`
key survives finalization. -/
theorem C1_witness :
    "brand" ∈ dictKeys (TemplatesUtils.finalize_detail_output []) ∧
    "raw" ∈ dictKeys (TemplatesUtils.finalize_detail_output [("specs", .vdict [])]) ∧
    "specs" ∈ dictKeys (TemplatesUtils.finalize_detail_output [("specs", .vdict [])]) :=
  ⟨(C1_amended []).1 "brand" (by decide),
   (C1_amended [("specs", .vdict [])]).1 "raw" (by decide),
   (C1_amended [("specs", .vdict [])]).2 "specs" (by decide)⟩

end CarScraper







